import Mathlib

set_option maxRecDepth 16384

/-!
Verification of the dispatch engine of `scripts/dispatch.py` (OpenClaw veille
skill): format detection, content rendering, channel handlers with their
fallback chains, and the dispatch orchestrator.

The Python module is shallowly embedded:
  * JSON digests are modelled by `Article` / `Category` / `RawDigest` /
    `ProcessedDigest` / `Digest`; text fields that the code reads with
    `dict.get` are `Option String` (`none` = key absent), numeric fields are
    `Option Int`.  A required access `a["k"]` is modelled by a `match` that
    yields `Except.error "KeyError: k"` when the key is absent, mirroring the
    exception the Python access raises.
  * The non-deterministic timestamp (`datetime.now`) is an explicit `now`
    parameter; the outside world (Telegram API, subprocesses, SMTP, the
    filesystem) is an `Env` record of oracles.
  * A handler computation returns `Except String Bool × List String`: the
    `Except` is the returned boolean or an escaped Python exception, the list
    collects the stderr diagnostic lines the handler printed.
  * Python truthiness of an optional string (`None` and `""` are falsy) is
    `pyTruthy`; `"sep".join(lines)` is `pyJoin`; `sorted` on unique string
    keys is `insertionSort` with code-point comparison `pyStrLe`, matching
    Python's code-point lexicographic string order.
-/

namespace Dispatch

/-! ## JSON documents and format detection (`_is_processed`, dispatch.py:48-50) -/

/-- A JSON value, used to state the format-detection claim over arbitrary
top-level documents. -/
inductive JVal where
  | null : JVal
  | bool : Bool → JVal
  | num : Int → JVal
  | str : String → JVal
  | arr : List JVal → JVal
  | obj : List (String × JVal) → JVal

/-- A top-level JSON document: an ordered list of key/value fields (the
digest read from stdin). -/
abbrev JDoc := List (String × JVal)

/-- The keys of a document, in order. -/
def jKeys (d : JDoc) : List String := d.map Prod.fst

/-- `_is_processed(data)` (dispatch.py:48-50): `return "categories" in data`,
i.e. membership of the key `"categories"` in the dict. -/
def _is_processed (data : JDoc) : Bool :=
  data.any (fun kv => kv.fst == "categories")

/-! ## Digest model

The two digest shapes the renderers consume.  `Option` fields model keys the
code reads leniently with `.get`; required keys (`title`, `url`, `source`,
`name`) are also `Option` so that a malformed digest can be represented, and
the raising accesses are modelled with `Except`. -/

structure Article where
  title : Option String
  url : Option String
  source : Option String
  published : Option String
  reason : Option String
deriving DecidableEq

structure Category where
  name : Option String
  articles : List Article
deriving DecidableEq

structure RawDigest where
  hours : Option Int
  count : Option Int
  skipped_url : Option Int
  skipped_topic : Option Int
  articles : List Article
deriving DecidableEq

structure ProcessedDigest where
  categories : List Category
  ghost_picks : List Article
deriving DecidableEq

/-- A digest, already split by the `_is_processed` discriminator: `processed`
is a document that has the top-level key `categories`, `raw` one that does
not. -/
inductive Digest where
  | raw : RawDigest → Digest
  | processed : ProcessedDigest → Digest
deriving DecidableEq

/-! ## Python-semantics helpers -/

/-- Truthiness of an optional string: Python's `None` and `""` are falsy. -/
def pyTruthy (s : Option String) : Bool :=
  match s with
  | none => false
  | some t => !(t == "")

/-- `"sep".join(lines)`. -/
def pyJoin (sep : String) : List String → String
  | [] => ""
  | [x] => x
  | x :: y :: xs => x ++ sep ++ pyJoin sep (y :: xs)

/-- Code-point comparison of char lists: Python `<` on strings. -/
def strLtb : List Char → List Char → Bool
  | [], [] => false
  | [], _ :: _ => true
  | _ :: _, [] => false
  | a :: as, b :: bs =>
    if a.toNat < b.toNat then true
    else if b.toNat < a.toNat then false
    else strLtb as bs

/-- Python `<=` on strings (code-point lexicographic). -/
def pyStrLe (a b : String) : Bool :=
  a == b || strLtb a.data b.data

/-- Insert into a sorted list (used to model Python's `sorted`). -/
def insertSorted (le : α → α → Bool) (x : α) : List α → List α
  | [] => [x]
  | y :: ys => if le x y then x :: y :: ys else y :: insertSorted le x ys

/-- Sorting model for Python's `sorted`; the keys sorted in this file are
distinct dict keys, so any comparison sort agrees with CPython's stable
mergesort. -/
def insertionSort (le : α → α → Bool) : List α → List α
  | [] => []
  | x :: xs => insertSorted le x (insertionSort le xs)

/-! ## `format_recap` (dispatch.py:58-79) -/

/-- The per-category lines of the recap of a processed digest: one
`- name: n` line per category with `n != 0` articles; `cat['name']` raises
when the key is absent. -/
def recapCatLines : List Category → Except String (List String)
  | [] => .ok []
  | c :: cs =>
    let n := c.articles.length
    if n = 0 then recapCatLines cs
    else
      match c.name with
      | none => .error "KeyError: name"
      | some nm =>
        match recapCatLines cs with
        | .error e => .error e
        | .ok ls => .ok (("- " ++ nm ++ ": " ++ toString n) :: ls)

/-- `format_recap(data)` (dispatch.py:58-79), with the embedded timestamp as
the explicit argument `now`. -/
def format_recap (now : String) (d : Digest) : Except String String :=
  match d with
  | .processed p =>
    let count := (p.categories.map (fun c => c.articles.length)).sum
    match recapCatLines p.categories with
    | .error e => .error e
    | .ok catLines =>
      .ok (pyJoin "\n"
        (["*Veille tech - " ++ now ++ "*", toString count ++ " articles"]
          ++ catLines
          ++ (if p.ghost_picks.isEmpty then []
              else ["\n✍️ " ++ toString p.ghost_picks.length ++ " candidat(s) Ghost"])))
  | .raw r =>
    let count := r.count.getD 0
    let skipped := r.skipped_url.getD 0 + r.skipped_topic.getD 0
    let hours := r.hours.getD 24
    .ok (pyJoin "\n"
      (["*Veille tech - " ++ now ++ "*",
        toString count ++ " articles (" ++ toString hours ++ "h)"]
        ++ (if skipped = 0 then [] else [toString skipped ++ " filtré(s)"])))

/-! ## `format_digest_markdown` (dispatch.py:82-118) -/

/-- `mapM` over `Except`, written out so proofs can unfold it. -/
def exMapM (f : α → Except String β) : List α → Except String (List β)
  | [] => .ok []
  | x :: xs =>
    match f x with
    | .error e => .error e
    | .ok y =>
      match exMapM f xs with
      | .error e => .error e
      | .ok ys => .ok (y :: ys)

/-- Accumulating variant: the lines appended by a loop body. -/
def exFlatMapM (f : α → Except String (List β)) : List α → Except String (List β)
  | [] => .ok []
  | x :: xs =>
    match f x with
    | .error e => .error e
    | .ok ys =>
      match exFlatMapM f xs with
      | .error e => .error e
      | .ok rest => .ok (ys ++ rest)

/-- The Markdown lines for one article of a category (dispatch.py:90-96):
`title`, `url` and `source` are required accesses, `published` and `reason`
are read with `.get`. -/
def mdArtLinesP (a : Article) : Except String (List String) :=
  let reason := a.reason.getD ""
  match a.title with
  | none => .error "KeyError: title"
  | some title =>
    match a.url with
    | none => .error "KeyError: url"
    | some url =>
      match a.source with
      | none => .error "KeyError: source"
      | some source =>
        .ok (["- **[" ++ title ++ "](" ++ url ++ ")**  ",
              "  *" ++ source ++ " - " ++ a.published.getD "" ++ "*  "]
          ++ (if reason = "" then [] else ["  " ++ reason])
          ++ [""])

/-- The Markdown lines for one category (dispatch.py:88-96): a `## name`
heading (raising access) followed by the lines of each article.  Note the
heading is emitted even when the category has no articles. -/
def mdCatBlock (c : Category) : Except String (List String) :=
  match c.name with
  | none => .error "KeyError: name"
  | some nm =>
    match exFlatMapM mdArtLinesP c.articles with
    | .error e => .error e
    | .ok artLines => .ok (["## " ++ nm, ""] ++ artLines)

/-- The Markdown lines for one ghost pick (dispatch.py:100-103). -/
def mdPickLines (p : Article) : Except String (List String) :=
  match p.title with
  | none => .error "KeyError: title"
  | some title =>
    match p.url with
    | none => .error "KeyError: url"
    | some url =>
      match p.source with
      | none => .error "KeyError: source"
      | some source =>
        .ok (["- **[" ++ title ++ "](" ++ url ++ ")**  ",
              "  *" ++ source ++ "* - " ++ p.reason.getD "", ""])

/-- The Markdown lines for one article of a raw-digest source group
(dispatch.py:113-116). -/
def mdArtLinesRaw (a : Article) : Except String (List String) :=
  match a.title with
  | none => .error "KeyError: title"
  | some title =>
    match a.url with
    | none => .error "KeyError: url"
    | some url =>
      .ok (["- **[" ++ title ++ "](" ++ url ++ ")**  ",
            "  *" ++ a.published.getD "" ++ "*", ""])

/-- `by_src.setdefault(key, []).append(a)`: append the article to its key's
group, or open a new group at the end (insertion order of a Python dict). -/
def addToGroups (gs : List (String × List Article)) (key : String) (a : Article) :
    List (String × List Article) :=
  match gs with
  | [] => [(key, [a])]
  | (k, as) :: rest =>
    if k = key then (k, as ++ [a]) :: rest
    else (k, as) :: addToGroups rest key a

/-- The `by_src` grouping loop of the raw branches (dispatch.py:108-110 and
171-173): group articles by `a.get("source", "?")`, keeping insertion order
inside each group. -/
def by_srcAux (gs : List (String × List Article)) : List Article → List (String × List Article)
  | [] => gs
  | a :: as => by_srcAux (addToGroups gs (a.source.getD "?") a) as

/-- `sorted(by_src.items())` (dispatch.py:111 and 174): the groups sorted by
source name (keys are distinct, so only the key matters). -/
def sortedGroups (arts : List Article) : List (String × List Article) :=
  insertionSort (fun x y => pyStrLe x.1 y.1) (by_srcAux [] arts)

/-- The Markdown lines for one raw-digest source group (dispatch.py:111-116). -/
def mdSrcBlock (g : String × List Article) : Except String (List String) :=
  match exFlatMapM mdArtLinesRaw g.2 with
  | .error e => .error e
  | .ok artLines => .ok (["## " ++ g.1, ""] ++ artLines)

/-- The list `lines` built by `format_digest_markdown` (dispatch.py:82-117)
before the final `"\n".join`. -/
def mdLines (now : String) (d : Digest) : Except String (List String) :=
  match d with
  | .processed p =>
    match exFlatMapM mdCatBlock p.categories with
    | .error e => .error e
    | .ok catLines =>
      match exFlatMapM mdPickLines p.ghost_picks with
      | .error e => .error e
      | .ok pickLines =>
        .ok (["# Veille technique - " ++ now, ""]
          ++ catLines
          ++ (if p.ghost_picks.isEmpty then []
              else ["## ✍️ Candidats Ghost", ""] ++ pickLines))
  | .raw r =>
    let skipped := r.skipped_url.getD 0 + r.skipped_topic.getD 0
    match exFlatMapM mdSrcBlock (sortedGroups r.articles) with
    | .error e => .error e
    | .ok srcLines =>
      .ok (["# Veille technique - " ++ now, "",
            "*" ++ toString r.articles.length ++ " articles | " ++ toString skipped ++ " filtres*", ""]
        ++ srcLines)

/-- `format_digest_markdown(data)` (dispatch.py:82-118), timestamp as
explicit `now`. -/
def format_digest_markdown (now : String) (d : Digest) : Except String String :=
  match mdLines now d with
  | .error e => .error e
  | .ok lines => .ok (pyJoin "\n" lines)

/-! ## `format_digest_html` (dispatch.py:121-203) -/

/-- One escaped character of `html.escape` (quote=True): `&`, `<`, `>`, `"`
and the apostrophe (code point 39) become entities. -/
def htmlEscapeChar (c : Char) : String :=
  if c = '&' then "&amp;"
  else if c = '<' then "&lt;"
  else if c = '>' then "&gt;"
  else if c = '"' then "&quot;"
  else if c.toNat = 39 then "&#x27;"
  else String.singleton c

/-- Character-wise escaping of a character list. -/
def htmlEscapeList : List Char → List Char
  | [] => []
  | c :: cs => (htmlEscapeChar c).data ++ htmlEscapeList cs

/-- `html.escape(s)` with the default `quote=True`: `&` is replaced first,
then the other four characters, which is the same as this simultaneous
character-wise map. -/
def htmlEscape (s : String) : String :=
  String.mk (htmlEscapeList s.data)

/-- `_e(s)` (dispatch.py:125-126): `html.escape(str(s) if s else "")`,
restricted to string-or-absent values. -/
def _e (s : Option String) : String :=
  htmlEscape (if pyTruthy s then s.getD "" else "")

/-- One `<tr>` row of a processed-digest category table (dispatch.py:135-146).
`url` and `title` are the raising accesses, in the order the f-string
evaluates them. -/
def htmlRowP (a : Article) : Except String String :=
  match a.url with
  | none => .error "KeyError: url"
  | some url =>
    match a.title with
    | none => .error "KeyError: title"
    | some title =>
      .ok ("<tr>"
        ++ "<td style=\"padding:8px 12px;border-bottom:1px solid #eee;vertical-align:top;"
        ++ "width:100px;color:#888;font-size:12px;white-space:nowrap;\">"
        ++ _e a.source ++ " " ++ _e a.published ++ "</td>"
        ++ "<td style=\"padding:8px 12px;border-bottom:1px solid #eee;vertical-align:top;\">"
        ++ "<a href=\"" ++ _e (some url)
        ++ "\" style=\"color:#2563eb;text-decoration:none;font-weight:500;\">"
        ++ _e (some title) ++ "</a>"
        ++ (if pyTruthy a.reason then
              "<br><span style=\"color:#666;font-size:12px;\">" ++ _e a.reason ++ "</span>"
            else "")
        ++ "</td></tr>")

/-- The `<h2>`+`<table>` section of one non-empty category
(dispatch.py:147-151); the rows are built before `cat["name"]` is read. -/
def htmlCatSection (c : Category) : Except String String :=
  match exMapM htmlRowP c.articles with
  | .error e => .error e
  | .ok rows =>
    match c.name with
    | none => .error "KeyError: name"
    | some nm =>
      .ok ("<h2 style=\"font-family:sans-serif;font-size:15px;color:#1e293b;"
        ++ "border-left:3px solid #2563eb;padding-left:10px;margin:24px 0 8px;\">"
        ++ _e (some nm) ++ "</h2>"
        ++ "<table style=\"width:100%;border-collapse:collapse;font-family:sans-serif;font-size:14px;\">"
        ++ pyJoin "" rows ++ "</table>")

/-- The category loop of the HTML renderer (dispatch.py:131-151): a category
with no articles is skipped (`continue`) before its name is ever read. -/
def htmlSectionsP : List Category → Except String (List String)
  | [] => .ok []
  | c :: cs =>
    if c.articles.isEmpty then htmlSectionsP cs
    else
      match htmlCatSection c with
      | .error e => .error e
      | .ok s =>
        match htmlSectionsP cs with
        | .error e => .error e
        | .ok ss => .ok (s :: ss)

/-- One `<tr>` row of the ghost-picks table (dispatch.py:154-159). -/
def htmlRowPick (p : Article) : Except String String :=
  match p.url with
  | none => .error "KeyError: url"
  | some url =>
    match p.title with
    | none => .error "KeyError: title"
    | some title =>
      .ok ("<tr><td style=\"padding:8px 12px;border-bottom:1px solid #f59e0b30;\">"
        ++ "<a href=\"" ++ _e (some url)
        ++ "\" style=\"color:#d97706;font-weight:500;text-decoration:none;\">"
        ++ _e (some title) ++ "</a>"
        ++ "<br><span style=\"color:#666;font-size:12px;\">"
        ++ _e p.source ++ " - " ++ _e p.reason ++ "</span>"
        ++ "</td></tr>")

/-- The ghost-picks section string (dispatch.py:161-166). -/
def htmlGhostSection (rows : List String) : String :=
  "<h2 style=\"font-family:sans-serif;font-size:15px;color:#92400e;"
    ++ "border-left:3px solid #f59e0b;padding-left:10px;margin:24px 0 8px;\">✍️ Candidats Ghost</h2>"
    ++ "<table style=\"width:100%;border-collapse:collapse;font-family:sans-serif;font-size:14px;"
    ++ "background:#fffbeb;border:1px solid #f59e0b40;\">"
    ++ pyJoin "" rows ++ "</table>"

/-- One `<tr>` row of a raw-digest source table (dispatch.py:175-180). -/
def htmlRowRaw (a : Article) : Except String String :=
  match a.url with
  | none => .error "KeyError: url"
  | some url =>
    match a.title with
    | none => .error "KeyError: title"
    | some title =>
      .ok ("<tr><td style=\"padding:6px 12px;border-bottom:1px solid #eee;font-size:13px;\">"
        ++ "<a href=\"" ++ _e (some url) ++ "\" style=\"color:#2563eb;text-decoration:none;\">"
        ++ _e (some title) ++ "</a>"
        ++ " <span style=\"color:#999;font-size:12px;\">" ++ _e a.published ++ "</span>"
        ++ "</td></tr>")

/-- The section of one raw-digest source group (dispatch.py:174-185). -/
def htmlSrcSection (g : String × List Article) : Except String String :=
  match exMapM htmlRowRaw g.2 with
  | .error e => .error e
  | .ok rows =>
    .ok ("<h2 style=\"font-family:sans-serif;font-size:14px;color:#334155;margin:20px 0 4px;\">"
      ++ _e (some g.1) ++ "</h2>"
      ++ "<table style=\"width:100%;border-collapse:collapse;font-family:sans-serif;\">"
      ++ pyJoin "" rows ++ "</table>")

/-- The `sections` list built by `format_digest_html` (dispatch.py:128-185). -/
def htmlSections (d : Digest) : Except String (List String) :=
  match d with
  | .processed p =>
    match htmlSectionsP p.categories with
    | .error e => .error e
    | .ok secs =>
      if p.ghost_picks.isEmpty then .ok secs
      else
        match exMapM htmlRowPick p.ghost_picks with
        | .error e => .error e
        | .ok rows => .ok (secs ++ [htmlGhostSection rows])
  | .raw r => exMapM htmlSrcSection (sortedGroups r.articles)

/-- The article count shown in the HTML header (dispatch.py:167 and 170). -/
def htmlCount (d : Digest) : Int :=
  match d with
  | .processed p => ((p.categories.map (fun c => c.articles.length)).sum : Nat)
  | .raw r => r.count.getD (r.articles.length : Int)

/-- The `"no articles"` placeholder body (dispatch.py:187). -/
def htmlPlaceholder : String :=
  "<p style=\x27color:#888;font-family:sans-serif;\x27>Aucun article.</p>"

/-- The surrounding HTML document (dispatch.py:189-203). -/
def htmlTemplate (now : String) (count : Int) (body : String) : String :=
  "<!DOCTYPE html>\n<html><head><meta charset=\"utf-8\"></head>\n"
    ++ "<body style=\"margin:0;padding:0;background:#f8fafc;\">\n"
    ++ "<div style=\"max-width:800px;margin:0 auto;background:#fff;padding:32px;font-family:sans-serif;\">\n"
    ++ "  <div style=\"border-bottom:2px solid #2563eb;padding-bottom:12px;margin-bottom:24px;\">\n"
    ++ "    <h1 style=\"font-size:18px;color:#1e293b;margin:0;\">📡 Veille technique</h1>\n"
    ++ "    <p style=\"color:#64748b;font-size:13px;margin:4px 0 0;\">"
    ++ now ++ " - " ++ toString count ++ " articles</p>\n  </div>\n  "
    ++ body
    ++ "\n  <div style=\"border-top:1px solid #e2e8f0;margin-top:32px;padding-top:12px;\n"
    ++ "              font-size:11px;color:#94a3b8;font-family:sans-serif;\">\n"
    ++ "    OpenClaw veille skill\n  </div>\n</div>\n</body></html>"

/-- `format_digest_html(data)` (dispatch.py:121-203), timestamp as explicit
`now`: the joined sections, or the placeholder when the join is empty
(Python's `or`), wrapped in the document template. -/
def format_digest_html (now : String) (d : Digest) : Except String String :=
  match htmlSections d with
  | .error e => .error e
  | .ok secs =>
    let joined := pyJoin "\n" secs
    let body := if joined = "" then htmlPlaceholder else joined
    .ok (htmlTemplate now (htmlCount d) body)

/-! ## String-observation helpers

Executable substring and line primitives used to state properties of the
rendered strings (Lean's own `String.splitOn`/`String.startsWith` do not
reduce in the kernel, so these are defined over `List Char`). -/

/-- `pat` is a prefix of `l` (character lists). -/
def listIsPrefix : List Char → List Char → Bool
  | [], _ => true
  | _ :: _, [] => false
  | a :: as, b :: bs => a == b && listIsPrefix as bs

/-- `pat` occurs somewhere in `l`. -/
def listHasSub (pat : List Char) : List Char → Bool
  | [] => pat.isEmpty
  | c :: cs => listIsPrefix pat (c :: cs) || listHasSub pat cs

/-- `pat` is a substring of `s`. -/
def containsSub (s pat : String) : Bool := listHasSub pat.data s.data

/-- `pat` occurs in `s` (propositional form). -/
def Occurs (pat s : String) : Prop := ∃ l r, s.data = l ++ pat.data ++ r

/-- Split a character list on a separator character. -/
def splitOnChar (c : Char) : List Char → List (List Char)
  | [] => [[]]
  | x :: xs =>
    if x == c then [] :: splitOnChar c xs
    else
      match splitOnChar c xs with
      | [] => [[x]]
      | l :: ls => (x :: l) :: ls

/-- The lines of a string (split on `'\n'`). -/
def pyLinesOf (s : String) : List String :=
  (splitOnChar (Char.ofNat 10) s.data).map (fun l => String.mk l)

/-- A Markdown section-heading line: starts with `"## "`. -/
def lineIsHeading (l : String) : Bool := listIsPrefix ("## ".data) l.data

/-! ## The grouping performed by the two full-digest renderers

`mdGrouping` is the sequence of (heading, articles) sections the Markdown
renderer iterates over (dispatch.py:88-96 and 108-116); `htmlGrouping` the
one the HTML renderer iterates over (dispatch.py:131-151 and 171-185).  The
raw branches of both renderers share the identical source-grouping code; the
processed branches differ in that the HTML renderer skips categories with no
articles (`if not arts: continue`, dispatch.py:133-134). -/

/-- The section a category contributes: its (raising) `name` and articles. -/
def catGroup (c : Category) : Except String (String × List Article) :=
  match c.name with
  | none => .error "KeyError: name"
  | some nm => .ok (nm, c.articles)

/-- The category/source sections of `format_digest_markdown`, in emission
order (ghost picks form a separate trailing section in both renderers). -/
def mdGrouping : Digest → Except String (List (String × List Article))
  | .processed p => exMapM catGroup p.categories
  | .raw r => .ok (sortedGroups r.articles)

/-- The category/source sections of `format_digest_html`, in emission
order. -/
def htmlGrouping : Digest → Except String (List (String × List Article))
  | .processed p => exMapM catGroup (p.categories.filter (fun c => !c.articles.isEmpty))
  | .raw r => .ok (sortedGroups r.articles)

/-- Whether the digest renders a trailing ghost-picks section. -/
def ghostFlag : Digest → Bool
  | .processed p => !p.ghost_picks.isEmpty
  | .raw _ => false

/-- An article the full-digest renderers reach: inside a category, a ghost
pick, or a raw-digest article. -/
def ReachableArticle (d : Digest) (a : Article) : Prop :=
  match d with
  | .processed p => (∃ c ∈ p.categories, a ∈ c.articles) ∨ a ∈ p.ghost_picks
  | .raw r => a ∈ r.articles

/-! ## Channel configuration and environment oracles -/

/-- One entry of the `outputs` list (§ Channel Configuration).  `type`
models `out.get("type", "")` (an absent key and `""` are indistinguishable
to the code); `enabled` models `out.get("enabled", True)`; every other key
is read with `.get`, so it is `Option`. -/
structure ChannelCfg where
  type : String
  enabled : Bool
  content : Option String
  bot_token : Option String
  chat_id : Option String
  mail_to : Option String
  subject : Option String
  smtp_host : Option String
  smtp_port : Option Int
  smtp_user : Option String
  smtp_pass : Option String
  mail_from : Option String
  path : Option String
deriving DecidableEq

/-- A channel config with every optional key absent. -/
def emptyCfg : ChannelCfg :=
  ⟨"", true, none, none, none, none, none, none, none, none, none, none, none⟩

/-- The outside world as the handlers observe it, one oracle per side
effect.  `none` for a subprocess/network oracle means the call raised an
exception (which the handler catches); `some` carries the observed outcome.
`now` stands for the `datetime.now(...)` timestamps (the different format
strings of the module are abstracted into one value, which no claim
depends on). -/
structure Env where
  now : String
  ocTelegramToken : String
  telegramApi : Option Bool
  telegramDesc : String
  telegramErr : String
  mailScriptExists : Bool
  mailRun : Option Int
  mailStderr : String
  mailErr : String
  smtpOk : Bool
  smtpErr : String
  ncScriptExists : Bool
  ncRun : Option Int
  ncStderr : String
  ncErr : String
  fileWriteOk : Bool
  fileErr : String
deriving DecidableEq

/-- The result of one handler call: the returned boolean or an escaped
exception, together with the stderr diagnostic lines printed. -/
abbrev HandlerResult := Except String Bool × List String

/-! ## Handlers (dispatch.py:227-401) -/

/-- `_out_telegram(cfg, data)` (dispatch.py:227-262).  The rendering on
line 239 happens outside the `try`, so a rendering exception escapes. -/
def _out_telegram (cfg : ChannelCfg) (data : Digest) (env : Env) : HandlerResult :=
  let token := if pyTruthy cfg.bot_token then cfg.bot_token.getD "" else env.ocTelegramToken
  let chat_id := cfg.chat_id.getD ""
  if token = "" then
    (.ok false, ["[dispatch:telegram] bot_token not found - set in output config or configure Telegram in OpenClaw"])
  else if chat_id = "" then
    (.ok false, ["[dispatch:telegram] chat_id required"])
  else
    let content := cfg.content.getD "recap"
    match (if content = "recap" then format_recap env.now data else format_digest_markdown env.now data) with
    | .error e => (.error e, [])
    | .ok _text =>
      match env.telegramApi with
      | none => (.ok false, ["[dispatch:telegram] error: " ++ env.telegramErr])
      | some true => (.ok true, ["[dispatch:telegram] OK"])
      | some false => (.ok false, ["[dispatch:telegram] API error: " ++ env.telegramDesc])

/-- `_smtp_fallback(cfg, subject, body_plain, body_html)`
(dispatch.py:299-338): hard failure (no further fallback) when any of
host, user, password, recipient is missing; otherwise one SMTP attempt
whose exceptions are all caught.  `smtp_port` is modelled as an integer, so
the `int(cfg.get("smtp_port", 587))` conversion (which would raise on a
non-numeric string before the `try`) is outside the model; the port,
from-address and MIME message do not affect the returned boolean or the
diagnostics. -/
def _smtp_fallback (cfg : ChannelCfg) (_subject _body_plain : String)
    (_body_html : Option String) (env : Env) : HandlerResult :=
  let host := cfg.smtp_host.getD ""
  let user := cfg.smtp_user.getD ""
  let password := cfg.smtp_pass.getD ""
  let to_ := cfg.mail_to.getD ""
  if host = "" || user = "" || password = "" || to_ = "" then
    (.ok false, ["[dispatch:smtp-fallback] missing smtp_host/smtp_user/smtp_pass/mail_to in output config"])
  else if env.smtpOk then
    (.ok true, ["[dispatch:smtp-fallback] OK"])
  else
    (.ok false, ["[dispatch:smtp-fallback] error: " ++ env.smtpErr])

/-- `_out_mail(cfg, data)` (dispatch.py:265-296): render (outside any
`try`), then delegate to the mail-client skill when present, falling back
to `_smtp_fallback` when the skill is absent, exits non-zero, or raises. -/
def _out_mail (cfg : ChannelCfg) (data : Digest) (env : Env) : HandlerResult :=
  let mail_to := cfg.mail_to.getD ""
  if mail_to = "" then
    (.ok false, ["[dispatch:mail-client] mail_to required"])
  else
    let subject := cfg.subject.getD ("Veille tech - " ++ env.now)
    let content := cfg.content.getD "full_digest"
    match (if content = "recap" then format_recap env.now data else format_digest_markdown env.now data) with
    | .error e => (.error e, [])
    | .ok body_plain =>
      match (if content = "recap" then .ok none else (format_digest_html env.now data).map some :
          Except String (Option String)) with
      | .error e => (.error e, [])
      | .ok body_html =>
        if env.mailScriptExists then
          match env.mailRun with
          | some rc =>
            if rc = 0 then (.ok true, ["[dispatch:mail-client] OK"])
            else
              let pre := ["[dispatch:mail-client] skill error: " ++ env.mailStderr,
                          "[dispatch:mail-client] falling back to SMTP config"]
              let (res, log) := _smtp_fallback cfg subject body_plain body_html env
              (res, pre ++ log)
          | none =>
            let pre := ["[dispatch:mail-client] skill call error: " ++ env.mailErr,
                        "[dispatch:mail-client] falling back to SMTP config"]
            let (res, log) := _smtp_fallback cfg subject body_plain body_html env
            (res, pre ++ log)
        else
          _smtp_fallback cfg subject body_plain body_html env

/-- `_out_nextcloud(cfg, data)` (dispatch.py:341-368): render (outside any
`try`), then delegate to the nextcloud skill CLI; no fallback. -/
def _out_nextcloud (cfg : ChannelCfg) (data : Digest) (env : Env) : HandlerResult :=
  let nc_path := cfg.path.getD ""
  if nc_path = "" then
    (.ok false, ["[dispatch:nextcloud] path required"])
  else
    let content := cfg.content.getD "full_digest"
    match (if content = "recap" then format_recap env.now data else format_digest_markdown env.now data) with
    | .error e => (.error e, [])
    | .ok _text =>
      if !env.ncScriptExists then
        (.ok false, ["[dispatch:nextcloud] skill not installed"])
      else
        match env.ncRun with
        | none => (.ok false, ["[dispatch:nextcloud] error: " ++ env.ncErr])
        | some rc =>
          if rc = 0 then (.ok true, ["[dispatch:nextcloud] written to " ++ nc_path ++ " OK"])
          else (.ok false, ["[dispatch:nextcloud] error: " ++ env.ncStderr])

/-- `_out_file(cfg, data)` (dispatch.py:371-389): render (outside the
`try`), then write to the local path; filesystem errors are caught. -/
def _out_file (cfg : ChannelCfg) (data : Digest) (env : Env) : HandlerResult :=
  let file_path := cfg.path.getD ""
  if file_path = "" then
    (.ok false, ["[dispatch:file] path required"])
  else
    let content := cfg.content.getD "full_digest"
    match (if content = "recap" then format_recap env.now data else format_digest_markdown env.now data) with
    | .error e => (.error e, [])
    | .ok _text =>
      if env.fileWriteOk then
        (.ok true, ["[dispatch:file] written to " ++ file_path ++ " OK"])
      else
        (.ok false, ["[dispatch:file] error: " ++ env.fileErr])

/-! ## Handler registry and dispatch (dispatch.py:396-441) -/

/-- A handler as the orchestrator sees it. -/
abbrev HandlerFun := ChannelCfg → Digest → HandlerResult

/-- A handler registry: `dispatch` is stated over an arbitrary registry so
that orchestrator claims quantify over handler behaviour; `_HANDLERS env`
is the concrete registry of dispatch.py:396-401. -/
abbrev HandlerMap := String → Option HandlerFun

/-- The `_HANDLERS` dict (dispatch.py:396-401). -/
def _HANDLERS (env : Env) : HandlerMap := fun ty =>
  if ty = "telegram_bot" then some (fun c d => _out_telegram c d env)
  else if ty = "mail-client" then some (fun c d => _out_mail c d env)
  else if ty = "nextcloud" then some (fun c d => _out_nextcloud c d env)
  else if ty = "file" then some (fun c d => _out_file c d env)
  else none

/-- The `{"ok": [...], "fail": [...], "skip": [...]}` result dict. -/
structure DispatchResult where
  ok : List String
  fail : List String
  skip : List String
deriving DecidableEq

/-- The per-channel loop of `dispatch` (dispatch.py:427-439).  Returns the
aggregated result (or the exception a handler let escape: the loop has no
`try`, so it aborts) together with the list of `type` labels whose handler
was actually invoked, in order. -/
def dispatchLoop (H : HandlerMap) (data : Digest) :
    List ChannelCfg → Except String DispatchResult × List String
  | [] => (.ok ⟨[], [], []⟩, [])
  | out :: rest =>
    let ty := out.type
    if !out.enabled then
      match dispatchLoop H data rest with
      | (.ok r, tr) => (.ok { r with skip := ty :: r.skip }, tr)
      | (.error e, tr) => (.error e, tr)
    else
      match H ty with
      | none =>
        match dispatchLoop H data rest with
        | (.ok r, tr) => (.ok { r with skip := ty :: r.skip }, tr)
        | (.error e, tr) => (.error e, tr)
      | some h =>
        match (h out data).1 with
        | .error e => (.error e, [ty])
        | .ok b =>
          match dispatchLoop H data rest with
          | (.ok r, tr) =>
            if b then (.ok { r with ok := ty :: r.ok }, ty :: tr)
            else (.ok { r with fail := ty :: r.fail }, ty :: tr)
          | (.error e, tr) => (.error e, ty :: tr)

/-- The persisted configuration document: `outputs` and optional
`profiles`. -/
structure Config where
  outputs : List ChannelCfg
  profiles : List (String × List ChannelCfg)
deriving DecidableEq

/-- Step 1 of `dispatch` (dispatch.py:414-419): a (truthy) profile name
selects `config["profiles"][profile]` (absent/missing: `[]`), otherwise the
default `outputs` list. -/
def resolvedOutputs (config : Config) (profile : Option String) : List ChannelCfg :=
  if pyTruthy profile then
    ((config.profiles.lookup (profile.getD "")).getD [])
  else
    config.outputs

/-- `dispatch(data, config, profile)` (dispatch.py:408-441): resolve the
output list, return the empty result on an empty list, otherwise run the
per-channel loop. -/
def dispatch (H : HandlerMap) (data : Digest) (config : Config) (profile : Option String) :
    Except String DispatchResult × List String :=
  let outputs := resolvedOutputs config profile
  if outputs.isEmpty then (.ok ⟨[], [], []⟩, [])
  else dispatchLoop H data outputs

/-- The exit code `main` produces once dispatch has completed
(dispatch.py:474-475): `sys.exit(1)` iff `results["fail"]` is truthy. -/
def exitCode (r : DispatchResult) : Nat :=
  if r.fail.isEmpty then 0 else 1

/-- `main()` after argument parsing (dispatch.py:449-475): invalid JSON on
stdin exits 1 before any dispatch; otherwise the summary is printed and the
exit code reflects the `fail` list.  A handler exception escapes `main`
(the `.error` case). -/
def main (stdin : Except String Digest) (config : Config) (profile : Option String)
    (H : HandlerMap) : Except String Nat :=
  match stdin with
  | .error _ => .ok 1
  | .ok data =>
    match (dispatch H data config profile).1 with
    | .error e => .error e
    | .ok r => .ok (exitCode r)

/-! ## Concrete inputs for witnesses and counterexamples -/

deriving instance DecidableEq for Except

/-- A well-formed article. -/
def aA : Article := ⟨some "A", some "http://a", some "X", none, none⟩

/-- A processed digest with an empty category followed by a non-empty one. -/
def dC2 : Digest := .processed ⟨[⟨some "Zq", []⟩, ⟨some "Aa", [aA]⟩], []⟩

/-- A raw digest with a non-zero skipped count. -/
def c9raw : RawDigest := ⟨some 24, some 5, some 3, some 4, []⟩

/-- A processed digest whose only category is missing its `name` key. -/
def dBadName : Digest := .processed ⟨[⟨none, []⟩], []⟩

/-- A file-channel configuration with a path. -/
def cfgFile : ChannelCfg := { emptyCfg with type := "file", path := some "out.md" }

/-- A mail-channel configuration with recipient and full SMTP credentials. -/
def cfgMail : ChannelCfg :=
  { emptyCfg with
      type := "mail-client", mail_to := some "to@x", smtp_host := some "h",
      smtp_user := some "u", smtp_pass := some "p" }

/-- A benign environment: every oracle succeeds. -/
def env0 : Env :=
  ⟨"t", "", some true, "", "", true, some 0, "", "", true, "", true, some 0, "", "", true, ""⟩

/-- `env0` with the mail-client skill exiting non-zero. -/
def envDelegFail : Env := { env0 with mailRun := some 1 }

/-- `env0` with the mail-client skill invocation raising. -/
def envDelegRaise : Env := { env0 with mailRun := none }

/-- A handler stub that always reports failure. -/
def hFalse : HandlerFun := fun _ _ => (.ok false, [])

/-- A registry where every type has the always-failing stub. -/
def Hfalse : HandlerMap := fun _ => some hFalse

/-- The HTML output on a digest whose rendering succeeds (total wrapper used
to state closed witnesses). -/
def htmlOutOf (now : String) (d : Digest) : String :=
  match format_digest_html now d with
  | .ok s => s
  | .error _ => ""

/-- A processed digest with markup-significant characters in a title. -/
def dEsc : Digest :=
  .processed ⟨[⟨some "Cat", [⟨some "a<b&c", some "http://x", some "S", none, none⟩]⟩], []⟩

/-- A disabled telegram channel entry. -/
def cfgDisabled : ChannelCfg := { emptyCfg with type := "telegram_bot", enabled := false }

/-- An entry whose type has no registered handler. -/
def cfgZzz : ChannelCfg := { emptyCfg with type := "zzz" }

/-- A registry that only knows the `file` type (with the failing stub). -/
def HfileOnly : HandlerMap := fun ty => if ty = "file" then some hFalse else none

/-- Count of `_smtp_fallback` attempts visible in a diagnostic log: every
invocation of `_smtp_fallback` prints exactly one line with this prefix. -/
def smtpAttempts (log : List String) : Nat :=
  (log.filter (fun l => listIsPrefix ("[dispatch:smtp-fallback]".data) l.data)).length

/-! # Theorems -/

/-! ## Shared lemmas -/

/-- The detector reads nothing but the key list. -/
theorem _is_processed_eq_keys (data : JDoc) :
    _is_processed data = (jKeys data).any (fun k => k == "categories") := by
  induction data with
  | nil => rfl
  | cons kv rest ih =>
    show ((kv.1 == "categories") || _is_processed rest)
      = ((kv.1 == "categories") || (jKeys rest).any (fun k => k == "categories"))
    rw [ih]

/-- Reassociating a literal newline after the hours parenthesis. -/
theorem append_hours_newline (x : String) :
    ("h)" : String) ++ ("\n" ++ x) = "h)\n" ++ x := by
  rw [← String.append_assoc]
  rfl

/-! ### Heading-line lemmas: which emitted lines start with `"## "` -/

/-- An article bullet line is not a heading. -/
theorem lineIsHeading_dash (x : String) : lineIsHeading ("- **[" ++ x) = false := by
  show listIsPrefix ("## ".data) (("- **[" ++ x).data) = false
  rw [String.data_append]
  rfl

/-- An indented italics line is not a heading. -/
theorem lineIsHeading_indent_star (x : String) : lineIsHeading ("  *" ++ x) = false := by
  show listIsPrefix ("## ".data) (("  *" ++ x).data) = false
  rw [String.data_append]
  rfl

/-- An indented reason line is not a heading. -/
theorem lineIsHeading_indent (x : String) : lineIsHeading ("  " ++ x) = false := by
  show listIsPrefix ("## ".data) (("  " ++ x).data) = false
  rw [String.data_append]
  rfl

/-- The blank line is not a heading. -/
theorem lineIsHeading_empty : lineIsHeading "" = false := by decide

/-- The document title line is not a heading. -/
theorem lineIsHeading_title (x : String) : lineIsHeading ("# Veille technique - " ++ x) = false := by
  show listIsPrefix ("## ".data) (("# Veille technique - " ++ x).data) = false
  rw [String.data_append]
  rfl

/-- The raw-digest count line is not a heading. -/
theorem lineIsHeading_star (x : String) : lineIsHeading ("*" ++ x) = false := by
  show listIsPrefix ("## ".data) (("*" ++ x).data) = false
  rw [String.data_append]
  rfl

/-- A `## ` line is a heading. -/
theorem lineIsHeading_heading (x : String) : lineIsHeading ("## " ++ x) = true := by
  show listIsPrefix ("## ".data) (("## " ++ x).data) = true
  rw [String.data_append]
  rfl

/-- The ghost-picks heading line is a heading. -/
theorem lineIsHeading_ghost : lineIsHeading "## ✍️ Candidats Ghost" = true := by decide

/-- The lines of one processed-digest article contain no heading. -/
theorem filter_heading_artP (a : Article) (ls : List String) (h : mdArtLinesP a = .ok ls) :
    ls.filter lineIsHeading = [] := by
  obtain ⟨t, u, s, pub, rea⟩ := a
  cases t with
  | none => exact absurd h (by simp [mdArtLinesP])
  | some t =>
  cases u with
  | none => exact absurd h (by simp [mdArtLinesP])
  | some u =>
  cases s with
  | none => exact absurd h (by simp [mdArtLinesP])
  | some s =>
  simp only [mdArtLinesP, Except.ok.injEq] at h
  subst h
  by_cases hr : rea.getD "" = ""
  · simp [hr, List.filter, String.append_assoc, lineIsHeading_dash,
      lineIsHeading_indent_star, lineIsHeading_empty]
  · simp [hr, List.filter, String.append_assoc, lineIsHeading_dash,
      lineIsHeading_indent_star, lineIsHeading_indent, lineIsHeading_empty]

/-- The lines of one ghost pick contain no heading. -/
theorem filter_heading_pick (a : Article) (ls : List String) (h : mdPickLines a = .ok ls) :
    ls.filter lineIsHeading = [] := by
  obtain ⟨t, u, s, pub, rea⟩ := a
  cases t with
  | none => exact absurd h (by simp [mdPickLines])
  | some t =>
  cases u with
  | none => exact absurd h (by simp [mdPickLines])
  | some u =>
  cases s with
  | none => exact absurd h (by simp [mdPickLines])
  | some s =>
  simp only [mdPickLines, Except.ok.injEq] at h
  subst h
  simp [List.filter, String.append_assoc, lineIsHeading_dash,
    lineIsHeading_indent_star, lineIsHeading_empty]

/-- The lines of one raw-digest article contain no heading. -/
theorem filter_heading_artRaw (a : Article) (ls : List String) (h : mdArtLinesRaw a = .ok ls) :
    ls.filter lineIsHeading = [] := by
  obtain ⟨t, u, s, pub, rea⟩ := a
  cases t with
  | none => exact absurd h (by simp [mdArtLinesRaw])
  | some t =>
  cases u with
  | none => exact absurd h (by simp [mdArtLinesRaw])
  | some u =>
  simp only [mdArtLinesRaw, Except.ok.injEq] at h
  subst h
  simp [List.filter, String.append_assoc, lineIsHeading_dash,
    lineIsHeading_indent_star, lineIsHeading_empty]

/-- Lines accumulated from heading-free blocks are heading-free. -/
theorem filter_heading_flat (f : Article → Except String (List String))
    (hf : ∀ a ls, f a = .ok ls → ls.filter lineIsHeading = []) :
    ∀ (xs : List Article) (ls : List String), exFlatMapM f xs = .ok ls →
      ls.filter lineIsHeading = [] := by
  intro xs
  induction xs with
  | nil => intro ls h; cases h; rfl
  | cons x xs ih =>
    intro ls h
    simp only [exFlatMapM] at h
    cases hx : f x with
    | error e => rw [hx] at h; cases h
    | ok ys =>
      rw [hx] at h
      cases hrest : exFlatMapM f xs with
      | error e => rw [hrest] at h; simp only [] at h; cases h
      | ok rest =>
        rw [hrest] at h
        cases h
        rw [List.filter_append, hf x ys hx, ih rest hrest]
        rfl

/-- The heading lines of one category block are exactly its `## name`. -/
theorem filter_heading_catBlock (c : Category) (ls : List String) (h : mdCatBlock c = .ok ls) :
    ∃ nm, catGroup c = .ok (nm, c.articles) ∧ ls.filter lineIsHeading = ["## " ++ nm] := by
  obtain ⟨onm, arts⟩ := c
  cases onm with
  | none => exact absurd h (by simp [mdCatBlock])
  | some nm =>
    simp only [mdCatBlock] at h
    cases hfl : exFlatMapM mdArtLinesP arts with
    | error e => rw [hfl] at h; cases h
    | ok artLines =>
      rw [hfl] at h
      cases h
      refine ⟨nm, rfl, ?_⟩
      show (["## " ++ nm, ""] ++ artLines).filter lineIsHeading = ["## " ++ nm]
      rw [List.filter_append, filter_heading_flat mdArtLinesP filter_heading_artP arts artLines hfl]
      simp [List.filter, lineIsHeading_heading, lineIsHeading_empty]

/-- The heading lines of one source block are exactly its `## source`. -/
theorem filter_heading_srcBlock (g : String × List Article) (ls : List String)
    (h : mdSrcBlock g = .ok ls) : ls.filter lineIsHeading = ["## " ++ g.1] := by
  simp only [mdSrcBlock] at h
  cases hfl : exFlatMapM mdArtLinesRaw g.2 with
  | error e => rw [hfl] at h; cases h
  | ok artLines =>
    rw [hfl] at h
    cases h
    show (["## " ++ g.1, ""] ++ artLines).filter lineIsHeading = ["## " ++ g.1]
    rw [List.filter_append, filter_heading_flat mdArtLinesRaw filter_heading_artRaw g.2 artLines hfl]
    simp [List.filter, lineIsHeading_heading, lineIsHeading_empty]

/-- Heading lines of the category blocks = the grouping's names. -/
theorem filter_heading_catBlocks :
    ∀ (cats : List Category) (ls : List String), exFlatMapM mdCatBlock cats = .ok ls →
      ∃ g, exMapM catGroup cats = .ok g
        ∧ ls.filter lineIsHeading = g.map (fun s => "## " ++ s.1) := by
  intro cats
  induction cats with
  | nil => intro ls h; cases h; exact ⟨[], rfl, rfl⟩
  | cons c cs ih =>
    intro ls h
    simp only [exFlatMapM] at h
    cases hc : mdCatBlock c with
    | error e => rw [hc] at h; cases h
    | ok ys =>
      rw [hc] at h
      cases hrest : exFlatMapM mdCatBlock cs with
      | error e => rw [hrest] at h; simp only [] at h; cases h
      | ok rest =>
        rw [hrest] at h
        cases h
        obtain ⟨nm, hnm, hfilter⟩ := filter_heading_catBlock c ys hc
        obtain ⟨g, hg, hgf⟩ := ih rest hrest
        refine ⟨(nm, c.articles) :: g, ?_, ?_⟩
        · simp only [exMapM, hnm, hg]
        · rw [List.filter_append, hfilter, hgf]
          rfl

/-- Heading lines of the source blocks = the groups' names. -/
theorem filter_heading_srcBlocks :
    ∀ (gs : List (String × List Article)) (ls : List String),
      exFlatMapM mdSrcBlock gs = .ok ls →
      ls.filter lineIsHeading = gs.map (fun s => "## " ++ s.1) := by
  intro gs
  induction gs with
  | nil => intro ls h; cases h; rfl
  | cons g gs ih =>
    intro ls h
    simp only [exFlatMapM] at h
    cases hg : mdSrcBlock g with
    | error e => rw [hg] at h; cases h
    | ok ys =>
      rw [hg] at h
      cases hrest : exFlatMapM mdSrcBlock gs with
      | error e => rw [hrest] at h; simp only [] at h; cases h
      | ok rest =>
        rw [hrest] at h
        cases h
        rw [List.filter_append, filter_heading_srcBlock g ys hg, ih rest hrest]
        rfl

/-! ### Grouping lemmas -/

/-- Filtering empty sections commutes with reading the category names. -/
theorem exMapM_catGroup_filter :
    ∀ (cs : List Category) (g : List (String × List Article)),
      exMapM catGroup cs = .ok g →
      exMapM catGroup (cs.filter (fun c => !c.articles.isEmpty))
        = .ok (g.filter (fun s => !s.2.isEmpty)) := by
  intro cs
  induction cs with
  | nil => intro g h; cases h; rfl
  | cons c cs ih =>
    intro g h
    simp only [exMapM] at h
    cases hc : catGroup c with
    | error e => rw [hc] at h; cases h
    | ok y =>
      rw [hc] at h
      cases hrest : exMapM catGroup cs with
      | error e => rw [hrest] at h; simp only [] at h; cases h
      | ok ys =>
        rw [hrest] at h
        cases h
        obtain ⟨onm, arts⟩ := c
        cases onm with
        | none => exact absurd hc (by simp [catGroup])
        | some nm =>
          simp only [catGroup, Except.ok.injEq] at hc
          subst hc
          by_cases he : arts.isEmpty
          · simp only [List.filter_cons, he]
            simpa [he] using ih ys hrest
          · simp only [List.filter_cons, he]
            simp only [exMapM, catGroup, ih ys hrest]
            simp [he]

/-- Every group built by `addToGroups` keeps a non-empty article list. -/
theorem addToGroups_nonempty :
    ∀ (gs : List (String × List Article)) (k : String) (a : Article),
      (∀ g ∈ gs, g.2 ≠ []) → ∀ g ∈ addToGroups gs k a, g.2 ≠ [] := by
  intro gs
  induction gs with
  | nil =>
    intro k a _ g hg
    simp only [addToGroups, List.mem_singleton] at hg
    subst hg
    simp
  | cons p rest ih =>
    intro k a h g hg
    obtain ⟨k', as⟩ := p
    simp only [addToGroups] at hg
    by_cases hk : k' = k
    · rw [if_pos hk] at hg
      rcases List.mem_cons.mp hg with h1 | h2
      · subst h1; simp
      · exact h _ (List.mem_cons_of_mem _ h2)
    · rw [if_neg hk] at hg
      rcases List.mem_cons.mp hg with h1 | h2
      · subst h1; exact h _ (List.mem_cons_self _ _)
      · exact ih k a (fun g hg => h g (List.mem_cons_of_mem _ hg)) g h2

/-- The `by_src` loop only produces non-empty groups. -/
theorem by_srcAux_nonempty :
    ∀ (arts : List Article) (gs : List (String × List Article)),
      (∀ g ∈ gs, g.2 ≠ []) → ∀ g ∈ by_srcAux gs arts, g.2 ≠ [] := by
  intro arts
  induction arts with
  | nil => intro gs h; exact h
  | cons a as ih =>
    intro gs h
    exact ih _ (addToGroups_nonempty gs _ a h)

/-- Membership in an insertion is membership or the inserted element. -/
theorem mem_insertSorted (le : α → α → Bool) (x : α) :
    ∀ (l : List α) (y : α), y ∈ insertSorted le x l → y = x ∨ y ∈ l := by
  intro l
  induction l with
  | nil =>
    intro y hy
    simp only [insertSorted, List.mem_singleton] at hy
    exact Or.inl hy
  | cons z zs ih =>
    intro y hy
    simp only [insertSorted] at hy
    split at hy
    · rcases List.mem_cons.mp hy with h | h
      · exact Or.inl h
      · exact Or.inr h
    · rcases List.mem_cons.mp hy with h | h
      · exact Or.inr (h ▸ List.mem_cons_self z zs)
      · rcases ih y h with h1 | h2
        · exact Or.inl h1
        · exact Or.inr (List.mem_cons_of_mem z h2)

/-- Sorting does not add members. -/
theorem mem_insertionSort (le : α → α → Bool) :
    ∀ (l : List α) (y : α), y ∈ insertionSort le l → y ∈ l := by
  intro l
  induction l with
  | nil => intro y hy; exact absurd hy (by simp [insertionSort])
  | cons x xs ih =>
    intro y hy
    simp only [insertionSort] at hy
    rcases mem_insertSorted le x (insertionSort le xs) y hy with h | h
    · exact h ▸ List.mem_cons_self x xs
    · exact List.mem_cons_of_mem x (ih y h)

/-- Every sorted source group is non-empty. -/
theorem sortedGroups_nonempty (arts : List Article) :
    ∀ g ∈ sortedGroups arts, g.2 ≠ [] := by
  intro g hg
  have hg' : g ∈ insertionSort (fun x y => pyStrLe x.1 y.1) (by_srcAux [] arts) := hg
  exact by_srcAux_nonempty arts [] (by simp) g
    (mem_insertionSort (fun x y => pyStrLe x.1 y.1) (by_srcAux [] arts) g hg')

/-- Dropping empty groups from the sorted source groups changes nothing. -/
theorem filter_sortedGroups (arts : List Article) :
    (sortedGroups arts).filter (fun s => !s.2.isEmpty) = sortedGroups arts := by
  apply List.filter_eq_self.mpr
  intro g hg
  simpa using sortedGroups_nonempty arts g hg

/-! ## C2: identical grouping of the two full-digest renderers -/

/-- C2 counterexample: on a digest with an empty category `Zq` followed by a
non-empty category `Aa`, the structured-text renderer iterates the sections
`[Zq, Aa]` while the styled-markup renderer iterates only `[Aa]`; in the
rendered strings, the Markdown output contains the `## Zq` section heading
while the HTML output does not mention `Zq` at all. -/
theorem c2_counterexample :
    mdGrouping dC2 = .ok [("Zq", []), ("Aa", [aA])]
    ∧ htmlGrouping dC2 = .ok [("Aa", [aA])]
    ∧ (format_digest_markdown "t" dC2).map (fun s => containsSub s "## Zq") = .ok true
    ∧ (format_digest_html "t" dC2).map (fun s => containsSub s "Zq") = .ok false := by
  refine ⟨by decide, by decide, by decide, by decide⟩

/-- C2 (amended): the two full-digest renderers traverse the same sections
in the same order with the same articles, except that the styled-markup
renderer omits sections with no articles (for raw digests every source group
is non-empty, so the groupings coincide); moreover the heading lines of the
structured-text output are exactly the grouping's section names (followed by
the ghost-picks heading when ghost picks exist). -/
theorem c2_grouping (d : Digest) (g : List (String × List Article))
    (h : mdGrouping d = .ok g) :
    htmlGrouping d = .ok (g.filter (fun s => !s.2.isEmpty))
    ∧ ∀ now ls, mdLines now d = .ok ls →
        ls.filter lineIsHeading
          = g.map (fun s => "## " ++ s.1)
            ++ (if ghostFlag d then ["## ✍️ Candidats Ghost"] else []) := by
  cases d with
  | raw r =>
    simp only [mdGrouping, Except.ok.injEq] at h
    subst h
    constructor
    · rw [htmlGrouping, filter_sortedGroups]
    · intro now ls hls
      simp only [mdLines] at hls
      cases hsl : exFlatMapM mdSrcBlock (sortedGroups r.articles) with
      | error e => rw [hsl] at hls; cases hls
      | ok srcLines =>
        rw [hsl] at hls
        cases hls
        rw [List.filter_append, filter_heading_srcBlocks (sortedGroups r.articles) srcLines hsl]
        simp [List.filter, String.append_assoc, lineIsHeading_title, lineIsHeading_empty,
          lineIsHeading_star, ghostFlag]
  | processed p =>
    simp only [mdGrouping] at h
    constructor
    · simp only [htmlGrouping]
      rw [exMapM_catGroup_filter p.categories g h]
    · intro now ls hls
      simp only [mdLines] at hls
      cases hcb : exFlatMapM mdCatBlock p.categories with
      | error e => rw [hcb] at hls; cases hls
      | ok catLines =>
        rw [hcb] at hls
        cases hpk : exFlatMapM mdPickLines p.ghost_picks with
        | error e => rw [hpk] at hls; cases hls
        | ok pickLines =>
          rw [hpk] at hls
          cases hls
          obtain ⟨g2, hg2, hgf⟩ := filter_heading_catBlocks p.categories catLines hcb
          rw [h] at hg2
          cases hg2
          by_cases hpe : p.ghost_picks.isEmpty
          · simp [hpe, List.filter_append, List.filter, String.append_assoc,
              lineIsHeading_title, lineIsHeading_empty, hgf, ghostFlag]
          · have hpkf : pickLines.filter lineIsHeading = [] :=
              filter_heading_flat mdPickLines filter_heading_pick p.ghost_picks pickLines hpk
            simp [hpe, List.filter_append, List.filter, String.append_assoc,
              lineIsHeading_title, lineIsHeading_empty, lineIsHeading_ghost, hgf, hpkf, ghostFlag]

/-- Witness for `c2_grouping` at the concrete digest `dC2`. -/
theorem c2_grouping_witness :
    htmlGrouping dC2 = .ok ([("Zq", ([] : List Article)), ("Aa", [aA])].filter (fun s => !s.2.isEmpty))
    ∧ ∀ now ls, mdLines now dC2 = .ok ls →
        ls.filter lineIsHeading
          = [("Zq", ([] : List Article)), ("Aa", [aA])].map (fun s => "## " ++ s.1)
            ++ (if ghostFlag dC2 then ["## ✍️ Candidats Ghost"] else []) :=
  c2_grouping dC2 [("Zq", []), ("Aa", [aA])] (by decide)

/-! ## C3: format detection -/

/-- C3: the detector classifies a document as Processed exactly when the key
`categories` is present at the top level (whatever its value, including an
empty list), and the classification depends on nothing but the key list. -/
theorem c3_detector_iff_categories_key (data : JDoc) :
    (_is_processed data = true ↔ "categories" ∈ jKeys data)
    ∧ ∀ d2 : JDoc, jKeys data = jKeys d2 → _is_processed data = _is_processed d2 := by
  constructor
  · rw [_is_processed_eq_keys]
    simp [List.any_eq_true]
  · intro d2 h
    rw [_is_processed_eq_keys, _is_processed_eq_keys, h]

/-! ## C9: raw recap shape -/

/-- C9 counterexample: on a concrete raw digest (hours 24, count 5, skipped
3+4) the recap has three lines, the second combines the article count with
the hours window, the skipped count sits on its own third line, and no line
combines the hours window with the skipped count. -/
theorem c9_counterexample :
    format_recap "ts" (.raw c9raw) = .ok "*Veille tech - ts*\n5 articles (24h)\n7 filtré(s)"
    ∧ (pyLinesOf "*Veille tech - ts*\n5 articles (24h)\n7 filtré(s)").length = 3
    ∧ (pyLinesOf "*Veille tech - ts*\n5 articles (24h)\n7 filtré(s)").filter
        (fun l => containsSub l "24" && containsSub l "7") = [] := by
  refine ⟨by decide, by decide, by decide⟩

/-- C9 (amended): the recap of a raw digest is a headline line with the
timestamp, then a line combining the article count and the hours window,
then — exactly when the skipped count is non-zero — a line with the skipped
count. -/
theorem c9_raw_recap_shape (now : String) (r : RawDigest) :
    format_recap now (.raw r) = .ok
      ("*Veille tech - " ++ now ++ "*" ++ "\n"
        ++ toString (r.count.getD 0) ++ " articles (" ++ toString (r.hours.getD 24) ++ "h)"
        ++ (if r.skipped_url.getD 0 + r.skipped_topic.getD 0 = 0 then ""
            else "\n" ++ toString (r.skipped_url.getD 0 + r.skipped_topic.getD 0) ++ " filtré(s)")) := by
  simp only [format_recap]
  by_cases h : r.skipped_url.getD 0 + r.skipped_topic.getD 0 = 0
  · simp [h, pyJoin, String.append_assoc]
  · simp [h, pyJoin, String.append_assoc, append_hours_newline]

/-! ## C1: exception propagation out of handlers -/

/-- The SMTP error line carries the smtp-fallback diagnostic prefix. -/
theorem smtp_prefix_err (x : String) :
    listIsPrefix ("[dispatch:smtp-fallback]".data)
      (("[dispatch:smtp-fallback] error: " ++ x).data) = true := by
  rw [String.data_append]
  rfl

/-- The skill-error line does not carry the smtp-fallback prefix. -/
theorem not_smtp_prefix_skill_err (x : String) :
    listIsPrefix ("[dispatch:smtp-fallback]".data)
      (("[dispatch:mail-client] skill error: " ++ x).data) = false := by
  rw [String.data_append]
  rfl

/-- The skill-call-error line does not carry the smtp-fallback prefix. -/
theorem not_smtp_prefix_skill_call_err (x : String) :
    listIsPrefix ("[dispatch:smtp-fallback]".data)
      (("[dispatch:mail-client] skill call error: " ++ x).data) = false := by
  rw [String.data_append]
  rfl

/-- `_smtp_fallback` never raises and always prints exactly one line, which
carries the smtp-fallback diagnostic prefix. -/
theorem smtp_fallback_shape (cfg : ChannelCfg) (s bp : String) (bh : Option String) (env : Env) :
    ∃ b msg, _smtp_fallback cfg s bp bh env = (.ok b, [msg])
      ∧ listIsPrefix ("[dispatch:smtp-fallback]".data) msg.data = true := by
  simp only [_smtp_fallback]
  repeat' split
  all_goals first
    | exact ⟨true, _, rfl, by decide⟩
    | exact ⟨false, _, rfl, by decide⟩
    | exact ⟨true, _, rfl, smtp_prefix_err env.smtpErr⟩
    | exact ⟨false, _, rfl, smtp_prefix_err env.smtpErr⟩

/-- C1 counterexample: a handler exception from rendering a malformed digest
(category missing `name`) escapes `_out_file` and reaches `dispatch`
uncaught, so the orchestrator observes an exception, not a boolean. -/
theorem c1_counterexample :
    _out_file cfgFile dBadName env0 = (.error "KeyError: name", [])
    ∧ (dispatch (_HANDLERS env0) dBadName ⟨[cfgFile], []⟩ none).1 = .error "KeyError: name" := by
  refine ⟨by decide, by decide⟩

/-- C1 (amended): whenever the three renderers succeed on the digest (i.e.
the digest is not malformed), no handler raises: each returns a boolean, and
a `false` return always comes with at least one diagnostic line.  (When a
renderer raises, the exception escapes the handler, as rendering happens
outside the `try` blocks — see the counterexample.) -/
theorem c1_handlers_no_raise (cfg : ChannelCfg) (d : Digest) (env : Env)
    (hrecap : ∃ s, format_recap env.now d = .ok s)
    (hmd : ∃ s, format_digest_markdown env.now d = .ok s)
    (hhtml : ∃ s, format_digest_html env.now d = .ok s) :
    (∃ b log, _out_telegram cfg d env = (.ok b, log) ∧ (b = false → log ≠ []))
    ∧ (∃ b log, _out_mail cfg d env = (.ok b, log) ∧ (b = false → log ≠ []))
    ∧ (∃ b log, _out_nextcloud cfg d env = (.ok b, log) ∧ (b = false → log ≠ []))
    ∧ (∃ b log, _out_file cfg d env = (.ok b, log) ∧ (b = false → log ≠ [])) := by
  obtain ⟨sr, hsr⟩ := hrecap
  obtain ⟨sm, hsm⟩ := hmd
  obtain ⟨sh, hsh⟩ := hhtml
  have hrender : ∀ c : String,
      ∃ s, (if c = "recap" then format_recap env.now d
            else format_digest_markdown env.now d) = .ok s := by
    intro c
    by_cases hc : c = "recap"
    · exact ⟨sr, by rw [if_pos hc, hsr]⟩
    · exact ⟨sm, by rw [if_neg hc, hsm]⟩
  refine ⟨?_, ?_, ?_, ?_⟩
  · simp only [_out_telegram]
    obtain ⟨s, hs⟩ := hrender (cfg.content.getD "recap")
    rw [hs]
    repeat' split
    all_goals first
      | exact ⟨true, _, rfl, fun h => nomatch h⟩
      | exact ⟨false, _, rfl, fun _ => by simp⟩
      | simp_all
  · simp only [_out_mail]
    obtain ⟨s1, hs1⟩ := hrender (cfg.content.getD "full_digest")
    rw [hs1]
    have hbh : ∃ bh, (if cfg.content.getD "full_digest" = "recap"
        then (.ok none : Except String (Option String))
        else (format_digest_html env.now d).map some) = .ok bh := by
      by_cases hc : cfg.content.getD "full_digest" = "recap"
      · exact ⟨none, by rw [if_pos hc]⟩
      · exact ⟨some sh, by rw [if_neg hc, hsh]; rfl⟩
    obtain ⟨bh, hbh⟩ := hbh
    rw [hbh]
    obtain ⟨b, msg, hsf, -⟩ := smtp_fallback_shape cfg
      (cfg.subject.getD ("Veille tech - " ++ env.now)) s1 bh env
    simp only []
    rw [hsf]
    repeat' split
    all_goals first
      | exact ⟨true, _, rfl, fun h => nomatch h⟩
      | exact ⟨false, _, rfl, fun _ => by simp⟩
      | exact ⟨b, _, rfl, fun _ => by simp⟩
  · simp only [_out_nextcloud]
    obtain ⟨s, hs⟩ := hrender (cfg.content.getD "full_digest")
    rw [hs]
    repeat' split
    all_goals first
      | exact ⟨true, _, rfl, fun h => nomatch h⟩
      | exact ⟨false, _, rfl, fun _ => by simp⟩
      | simp_all
  · simp only [_out_file]
    obtain ⟨s, hs⟩ := hrender (cfg.content.getD "full_digest")
    rw [hs]
    repeat' split
    all_goals first
      | exact ⟨true, _, rfl, fun h => nomatch h⟩
      | exact ⟨false, _, rfl, fun _ => by simp⟩
      | simp_all

/-! ## C5: the mail fallback chain -/

/-- The falling-back notice line does not carry the smtp-fallback prefix. -/
theorem not_smtp_prefix_falling_back :
    listIsPrefix ("[dispatch:smtp-fallback]".data)
      ("[dispatch:mail-client] falling back to SMTP config".data) = false := by
  decide

/-- C5: with `mail_to` present and the mail-client skill installed, when the
skill exits non-zero or its invocation raises, the SMTP fallback is
attempted exactly once (one smtp-fallback diagnostic line); when the skill
exits zero, the fallback is never attempted and `_out_mail` returns True. -/
theorem c5_mail_fallback (cfg : ChannelCfg) (d : Digest) (env : Env)
    (hto : ¬cfg.mail_to.getD "" = "")
    (hex : env.mailScriptExists = true)
    (hrecap : ∃ s, format_recap env.now d = .ok s)
    (hmd : ∃ s, format_digest_markdown env.now d = .ok s)
    (hhtml : ∃ s, format_digest_html env.now d = .ok s) :
    (∀ rc, env.mailRun = some rc → ¬rc = 0 → smtpAttempts (_out_mail cfg d env).2 = 1)
    ∧ (env.mailRun = none → smtpAttempts (_out_mail cfg d env).2 = 1)
    ∧ (env.mailRun = some 0 →
        smtpAttempts (_out_mail cfg d env).2 = 0 ∧ (_out_mail cfg d env).1 = .ok true) := by
  obtain ⟨sr, hsr⟩ := hrecap
  obtain ⟨sm, hsm⟩ := hmd
  obtain ⟨sh, hsh⟩ := hhtml
  have hp : ∃ s, (if cfg.content.getD "full_digest" = "recap" then format_recap env.now d
      else format_digest_markdown env.now d) = .ok s := by
    by_cases hc : cfg.content.getD "full_digest" = "recap"
    · exact ⟨sr, by rw [if_pos hc, hsr]⟩
    · exact ⟨sm, by rw [if_neg hc, hsm]⟩
  obtain ⟨s1, hp⟩ := hp
  have hh : ∃ bh, (if cfg.content.getD "full_digest" = "recap"
      then (.ok none : Except String (Option String))
      else (format_digest_html env.now d).map some) = .ok bh := by
    by_cases hc : cfg.content.getD "full_digest" = "recap"
    · exact ⟨none, by rw [if_pos hc]⟩
    · exact ⟨some sh, by rw [if_neg hc, hsh]; rfl⟩
  obtain ⟨bh, hh⟩ := hh
  obtain ⟨b, msg, hsf, hpre⟩ := smtp_fallback_shape cfg
    (cfg.subject.getD ("Veille tech - " ++ env.now)) s1 bh env
  refine ⟨?_, ?_, ?_⟩
  · intro rc hrc hrc0
    simp only [_out_mail, if_neg hto]
    rw [hp, hh]
    simp only []
    rw [hsf, hex, hrc]
    simp only [if_true, if_neg hrc0]
    unfold smtpAttempts
    rw [List.cons_append, List.cons_append, List.nil_append]
    rw [List.filter_cons_of_neg (by rw [not_smtp_prefix_skill_err]; exact Bool.false_ne_true)]
    rw [List.filter_cons_of_neg (by rw [not_smtp_prefix_falling_back]; exact Bool.false_ne_true)]
    rw [List.filter_cons]
    rw [hpre]
    rfl
  · intro hrc
    simp only [_out_mail, if_neg hto]
    rw [hp, hh]
    simp only []
    rw [hsf, hex, hrc]
    simp only [if_true]
    unfold smtpAttempts
    rw [List.cons_append, List.cons_append, List.nil_append]
    rw [List.filter_cons_of_neg (by rw [not_smtp_prefix_skill_call_err]; exact Bool.false_ne_true)]
    rw [List.filter_cons_of_neg (by rw [not_smtp_prefix_falling_back]; exact Bool.false_ne_true)]
    rw [List.filter_cons]
    rw [hpre]
    rfl
  · intro hrc
    simp only [_out_mail, if_neg hto]
    rw [hp, hh]
    simp only []
    rw [hsf, hex, hrc]
    simp only [if_true, if_pos rfl]
    exact ⟨by decide, by simp⟩

/-- Witness for `c5_mail_fallback` at a concrete failing delegation. -/
theorem c5_mail_fallback_witness :
    (∀ rc, envDelegFail.mailRun = some rc → ¬rc = 0 →
      smtpAttempts (_out_mail cfgMail dC2 envDelegFail).2 = 1)
    ∧ (envDelegFail.mailRun = none → smtpAttempts (_out_mail cfgMail dC2 envDelegFail).2 = 1)
    ∧ (envDelegFail.mailRun = some 0 →
        smtpAttempts (_out_mail cfgMail dC2 envDelegFail).2 = 0
        ∧ (_out_mail cfgMail dC2 envDelegFail).1 = .ok true) :=
  c5_mail_fallback cfgMail dC2 envDelegFail (by decide) (by decide) ⟨_, rfl⟩ ⟨_, rfl⟩ ⟨_, rfl⟩

/-- Witness for `c1_handlers_no_raise` at the concrete digest `dC2`. -/
theorem c1_handlers_no_raise_witness :
    ∃ b log, _out_telegram cfgFile dC2 env0 = (.ok b, log) ∧ (b = false → log ≠ []) :=
  (c1_handlers_no_raise cfgFile dC2 env0 ⟨_, rfl⟩ ⟨_, rfl⟩ ⟨_, rfl⟩).1

/-! ## C6, C7, C8, C10: the dispatch orchestrator -/

/-- When every channel is enabled, registered, and its handler reports
failure, the loop collects every type label into `fail`, in order, and
invokes every handler. -/
theorem dispatchLoop_all_fail (H : HandlerMap) (data : Digest) :
    ∀ outs : List ChannelCfg,
      (∀ o ∈ outs, o.enabled = true ∧ ∃ h, H o.type = some h ∧ (h o data).1 = .ok false) →
      dispatchLoop H data outs
        = (.ok ⟨[], outs.map (fun o => o.type), []⟩, outs.map (fun o => o.type)) := by
  intro outs
  induction outs with
  | nil => intro _; rfl
  | cons o rest ih =>
    intro h
    obtain ⟨hen, hf, hH, hfail⟩ := h o (List.mem_cons_self o rest)
    have hrest := ih (fun o ho => h o (List.mem_cons_of_mem _ ho))
    simp only [dispatchLoop, hen, hH, hfail, hrest, Bool.not_true, Bool.false_eq_true,
      if_false, List.map_cons]

/-- C6: over a channel list in which every channel is enabled, has a
registered handler, and whose handler returns False, dispatch yields
`ok = []`, `skip = []`, `fail` = the type labels in configuration order,
and (for a non-empty list) the process exit status signals failure. -/
theorem c6_all_fail (H : HandlerMap) (data : Digest) (config : Config) (profile : Option String)
    (houts : ∀ o ∈ resolvedOutputs config profile,
      o.enabled = true ∧ ∃ h, H o.type = some h ∧ (h o data).1 = .ok false) :
    ∃ r, (dispatch H data config profile).1 = .ok r
      ∧ r.ok = [] ∧ r.skip = []
      ∧ r.fail = (resolvedOutputs config profile).map (fun o => o.type)
      ∧ (resolvedOutputs config profile ≠ [] → exitCode r = 1) := by
  by_cases hemp : (resolvedOutputs config profile).isEmpty
  · refine ⟨⟨[], [], []⟩, ?_, rfl, rfl, ?_, ?_⟩
    · simp only [dispatch, hemp, if_true]
    · rw [List.isEmpty_iff.mp hemp]; rfl
    · intro hne; exact absurd (List.isEmpty_iff.mp hemp) hne
  · refine ⟨⟨[], (resolvedOutputs config profile).map (fun o => o.type), []⟩, ?_, rfl, rfl, rfl, ?_⟩
    · simp only [dispatch, hemp, if_false]
      rw [dispatchLoop_all_fail H data (resolvedOutputs config profile) houts]
      rfl
    · intro hne
      simp only [exitCode]
      rw [if_neg]
      simp only [List.isEmpty_eq_true, List.map_eq_nil_iff]
      exact fun h => hne h

/-- Characterization of `skip` and of the invocation trace: an entry is
skipped iff it is disabled or unregistered, and its handler is invoked iff
it is enabled and registered; both in configuration order. -/
theorem dispatchLoop_skip_trace (H : HandlerMap) (data : Digest) :
    ∀ (outs : List ChannelCfg) (r : DispatchResult) (tr : List String),
      dispatchLoop H data outs = (.ok r, tr) →
      r.skip = (outs.filter (fun o => !o.enabled || (H o.type).isNone)).map (fun o => o.type)
      ∧ tr = (outs.filter (fun o => o.enabled && (H o.type).isSome)).map (fun o => o.type) := by
  intro outs
  induction outs with
  | nil =>
    intro r tr h
    cases h
    exact ⟨rfl, rfl⟩
  | cons o rest ih =>
    intro r tr h
    simp only [dispatchLoop] at h
    by_cases hen : o.enabled
    · rw [if_neg (by simp [hen])] at h
      cases hH : H o.type with
      | none =>
        rw [hH] at h
        simp only [] at h
        cases hrest : dispatchLoop H data rest with
        | mk res tr' =>
          cases res with
          | error e => rw [hrest] at h; simp only [] at h; cases h
          | ok r' =>
            rw [hrest] at h
            simp only [] at h
            cases h
            obtain ⟨hskip, htr⟩ := ih r' _ hrest
            constructor
            · simp only [List.filter_cons, hen, hH, Option.isNone_none, Bool.not_true,
                Bool.false_or, if_true, List.map_cons]
              rw [hskip]
            · simp only [List.filter_cons, hen, hH, Option.isSome_none, Bool.and_false,
                Bool.false_eq_true, if_false]
              rw [htr]
      | some hd =>
        rw [hH] at h
        simp only [] at h
        cases hb : (hd o data).1 with
        | error e => rw [hb] at h; cases h
        | ok b =>
          rw [hb] at h
          simp only [] at h
          cases hrest : dispatchLoop H data rest with
          | mk res tr' =>
            cases res with
            | error e => rw [hrest] at h; simp only [] at h; cases h
            | ok r' =>
              rw [hrest] at h
              simp only [] at h
              obtain ⟨hskip, htr⟩ := ih r' _ hrest
              cases b with
              | true =>
                rw [if_pos rfl] at h
                cases h
                constructor
                · simp only [List.filter_cons, hen, hH, Option.isNone_some, Bool.not_true,
                    Bool.false_or, Bool.false_eq_true, if_false]
                  exact hskip
                · simp only [List.filter_cons, hen, hH, Option.isSome_some, Bool.and_true,
                    if_true, List.map_cons]
                  rw [htr]
              | false =>
                rw [if_neg (by simp)] at h
                cases h
                constructor
                · simp only [List.filter_cons, hen, hH, Option.isNone_some, Bool.not_true,
                    Bool.false_or, Bool.false_eq_true, if_false]
                  exact hskip
                · simp only [List.filter_cons, hen, hH, Option.isSome_some, Bool.and_true,
                    if_true, List.map_cons]
                  rw [htr]
    · rw [if_pos (by simp [hen])] at h
      cases hrest : dispatchLoop H data rest with
      | mk res tr' =>
        cases res with
        | error e => rw [hrest] at h; simp only [] at h; cases h
        | ok r' =>
          rw [hrest] at h
          simp only [] at h
          cases h
          obtain ⟨hskip, htr⟩ := ih r' _ hrest
          constructor
          · simp only [List.filter_cons, hen, Bool.not_false, Bool.true_or, if_true,
              List.map_cons]
            rw [hskip]
          · simp only [List.filter_cons, hen, Bool.false_and, Bool.false_eq_true, if_false]
            rw [htr]

/-- C7: an entry with `enabled: false`, and likewise an entry whose type has
no registered handler, never has a handler invoked for it and contributes
its type label to `skip`: over a completed dispatch, `skip` is exactly the
disabled-or-unregistered entries' labels in order, and the invocation trace
is exactly the enabled-and-registered entries' labels in order. -/
theorem c7_disabled_skipped (H : HandlerMap) (data : Digest) (config : Config)
    (profile : Option String) (r : DispatchResult) (tr : List String)
    (h : dispatch H data config profile = (.ok r, tr)) :
    r.skip = ((resolvedOutputs config profile).filter
        (fun o => !o.enabled || (H o.type).isNone)).map (fun o => o.type)
    ∧ tr = ((resolvedOutputs config profile).filter
        (fun o => o.enabled && (H o.type).isSome)).map (fun o => o.type) := by
  simp only [dispatch] at h
  by_cases hemp : (resolvedOutputs config profile).isEmpty
  · rw [if_pos hemp] at h
    cases h
    rw [List.isEmpty_iff.mp hemp]
    exact ⟨rfl, rfl⟩
  · rw [if_neg hemp] at h
    exact dispatchLoop_skip_trace H data (resolvedOutputs config profile) r tr h

/-- Every processed entry lands in exactly one of the three lists. -/
theorem dispatchLoop_partition (H : HandlerMap) (data : Digest) :
    ∀ (outs : List ChannelCfg) (r : DispatchResult) (tr : List String),
      dispatchLoop H data outs = (.ok r, tr) →
      (r.ok ++ r.fail ++ r.skip).Perm (outs.map (fun o => o.type)) := by
  intro outs
  induction outs with
  | nil =>
    intro r tr h
    cases h
    exact List.Perm.refl _
  | cons o rest ih =>
    intro r tr h
    simp only [dispatchLoop] at h
    by_cases hen : o.enabled
    · rw [if_neg (by simp [hen])] at h
      cases hH : H o.type with
      | none =>
        rw [hH] at h
        simp only [] at h
        cases hrest : dispatchLoop H data rest with
        | mk res tr' =>
          cases res with
          | error e => rw [hrest] at h; simp only [] at h; cases h
          | ok r' =>
            rw [hrest] at h
            simp only [] at h
            cases h
            have hperm := ih r' _ hrest
            rw [List.map_cons]
            exact List.perm_middle.trans (hperm.cons o.type)
      | some hd =>
        rw [hH] at h
        simp only [] at h
        cases hb : (hd o data).1 with
        | error e => rw [hb] at h; cases h
        | ok b =>
          rw [hb] at h
          simp only [] at h
          cases hrest : dispatchLoop H data rest with
          | mk res tr' =>
            cases res with
            | error e => rw [hrest] at h; simp only [] at h; cases h
            | ok r' =>
              rw [hrest] at h
              simp only [] at h
              have hperm := ih r' _ hrest
              cases b with
              | true =>
                rw [if_pos rfl] at h
                cases h
                exact hperm.cons o.type
              | false =>
                rw [if_neg (by simp)] at h
                cases h
                rw [List.map_cons]
                have hperm2 : (r'.ok ++ (r'.fail ++ r'.skip)).Perm
                    (rest.map (fun o => o.type)) := by
                  rw [← List.append_assoc]
                  exact hperm
                rw [List.append_assoc, List.cons_append]
                exact List.perm_middle.trans (hperm2.cons o.type)
    · rw [if_pos (by simp [hen])] at h
      cases hrest : dispatchLoop H data rest with
      | mk res tr' =>
        cases res with
        | error e => rw [hrest] at h; simp only [] at h; cases h
        | ok r' =>
          rw [hrest] at h
          simp only [] at h
          cases h
          have hperm := ih r' _ hrest
          rw [List.map_cons]
          exact List.perm_middle.trans (hperm.cons o.type)

/-- C10: a completed dispatch always yields exactly the three lists `ok`,
`fail`, `skip`, whose labels are, as a multiset, exactly the type labels of
the resolved output list — each entry contributes to exactly one list — and
whose sizes add up to the number of resolved entries. -/
theorem c10_result_partition (H : HandlerMap) (data : Digest) (config : Config)
    (profile : Option String) (r : DispatchResult) (tr : List String)
    (h : dispatch H data config profile = (.ok r, tr)) :
    (r.ok ++ r.fail ++ r.skip).Perm ((resolvedOutputs config profile).map (fun o => o.type))
    ∧ r.ok.length + r.fail.length + r.skip.length = (resolvedOutputs config profile).length := by
  have hperm : (r.ok ++ r.fail ++ r.skip).Perm
      ((resolvedOutputs config profile).map (fun o => o.type)) := by
    simp only [dispatch] at h
    by_cases hemp : (resolvedOutputs config profile).isEmpty
    · rw [if_pos hemp] at h
      cases h
      rw [List.isEmpty_iff.mp hemp]
      exact List.Perm.refl _
    · rw [if_neg hemp] at h
      exact dispatchLoop_partition H data (resolvedOutputs config profile) r tr h
  refine ⟨hperm, ?_⟩
  have hlen := hperm.length_eq
  simp only [List.length_append, List.length_map] at hlen
  omega

/-- C8: once the input parses and dispatch completes, the exit status of
`main` is non-zero exactly when the `fail` list is non-empty. -/
theorem c8_exit_nonzero_iff_fail (H : HandlerMap) (d : Digest) (config : Config)
    (profile : Option String) (r : DispatchResult)
    (hdisp : (dispatch H d config profile).1 = .ok r) :
    main (.ok d) config profile H = .ok (exitCode r)
    ∧ (exitCode r ≠ 0 ↔ r.fail ≠ []) := by
  constructor
  · simp only [main, hdisp]
  · simp only [exitCode]
    by_cases h : r.fail.isEmpty
    · rw [if_pos h]
      simp [List.isEmpty_iff.mp h]
    · rw [if_neg h]
      simp only [ne_eq]
      constructor
      · intro _ hnil
        exact h (by rw [hnil]; rfl)
      · intro _; decide

/-- Witness for `c6_all_fail`: one enabled file channel whose handler
fails. -/
theorem c6_all_fail_witness :
    ∃ r, (dispatch Hfalse dC2 ⟨[cfgFile], []⟩ none).1 = .ok r
      ∧ r.ok = [] ∧ r.skip = []
      ∧ r.fail = (resolvedOutputs ⟨[cfgFile], []⟩ none).map (fun o => o.type)
      ∧ (resolvedOutputs ⟨[cfgFile], []⟩ none ≠ [] → exitCode r = 1) :=
  c6_all_fail Hfalse dC2 ⟨[cfgFile], []⟩ none (by
    intro o ho
    rw [show resolvedOutputs ⟨[cfgFile], []⟩ none = [cfgFile] from rfl,
      List.mem_singleton] at ho
    subst ho
    exact ⟨rfl, hFalse, rfl, rfl⟩)

/-- Witness for `c7_disabled_skipped`: a disabled entry and an unknown type
are skipped, only the registered enabled entry's handler is invoked. -/
theorem c7_disabled_skipped_witness :
    (⟨[], ["file"], ["telegram_bot", "zzz"]⟩ : DispatchResult).skip
      = ((resolvedOutputs ⟨[cfgDisabled, cfgZzz, cfgFile], []⟩ none).filter
          (fun o => !o.enabled || (HfileOnly o.type).isNone)).map (fun o => o.type)
    ∧ ["file"]
      = ((resolvedOutputs ⟨[cfgDisabled, cfgZzz, cfgFile], []⟩ none).filter
          (fun o => o.enabled && (HfileOnly o.type).isSome)).map (fun o => o.type) :=
  c7_disabled_skipped HfileOnly dC2 ⟨[cfgDisabled, cfgZzz, cfgFile], []⟩ none
    ⟨[], ["file"], ["telegram_bot", "zzz"]⟩ ["file"] rfl

/-- Witness for `c10_result_partition` at the same concrete dispatch. -/
theorem c10_result_partition_witness :
    (([] : List String) ++ ["file"] ++ ["telegram_bot", "zzz"]).Perm
      ((resolvedOutputs ⟨[cfgDisabled, cfgZzz, cfgFile], []⟩ none).map (fun o => o.type))
    ∧ ([] : List String).length + ["file"].length + ["telegram_bot", "zzz"].length
      = (resolvedOutputs ⟨[cfgDisabled, cfgZzz, cfgFile], []⟩ none).length :=
  c10_result_partition HfileOnly dC2 ⟨[cfgDisabled, cfgZzz, cfgFile], []⟩ none
    ⟨[], ["file"], ["telegram_bot", "zzz"]⟩ ["file"] rfl

/-- Witness for `c8_exit_nonzero_iff_fail` at a concrete failing dispatch. -/
theorem c8_exit_nonzero_iff_fail_witness :
    main (.ok dC2) ⟨[cfgFile], []⟩ none Hfalse
      = .ok (exitCode ⟨[], ["file"], []⟩)
    ∧ (exitCode ⟨[], ["file"], []⟩ ≠ 0 ↔ (["file"] : List String) ≠ []) :=
  c8_exit_nonzero_iff_fail Hfalse dC2 ⟨[cfgFile], []⟩ none ⟨[], ["file"], []⟩ rfl

/-! ## C4: markup escaping in the styled renderer -/

/-- A pattern occurs in itself. -/
theorem occursSelf (pat : String) : Occurs pat pat := ⟨[], [], by simp⟩

/-- Occurrence is preserved by prepending. -/
theorem occursLeft (x : String) {pat m : String} (h : Occurs pat m) : Occurs pat (x ++ m) := by
  obtain ⟨l, r, hm⟩ := h
  exact ⟨x.data ++ l, r, by rw [String.data_append, hm]; simp [List.append_assoc]⟩

/-- Occurrence is preserved by appending. -/
theorem occursRight (y : String) {pat m : String} (h : Occurs pat m) : Occurs pat (m ++ y) := by
  obtain ⟨l, r, hm⟩ := h
  exact ⟨l, r ++ y.data, by rw [String.data_append, hm]; simp [List.append_assoc]⟩

/-- Occurrence in an element gives occurrence in the join. -/
theorem occurs_pyJoin {pat : String} (sep : String) :
    ∀ (l : List String) (x : String), x ∈ l → Occurs pat x → Occurs pat (pyJoin sep l) := by
  intro l
  induction l with
  | nil => intro x hx; cases hx
  | cons y ys ih =>
    intro x hx hocc
    cases ys with
    | nil =>
      rcases List.mem_singleton.mp hx with rfl
      exact hocc
    | cons z zs =>
      rcases List.mem_cons.mp hx with rfl | hx'
      · exact occursRight _ (occursRight _ hocc)
      · exact occursLeft _ (ih x hx' hocc)

/-- A pattern occurring in the empty string is empty, hence occurs
anywhere. -/
theorem occurs_of_occurs_empty {pat : String} (h : Occurs pat "") :
    ∀ s : String, Occurs pat s := by
  obtain ⟨l, r, hm⟩ := h
  have hnil : l ++ pat.data ++ r = [] := hm.symm
  rw [List.append_eq_nil] at hnil
  rw [List.append_eq_nil] at hnil
  intro s
  refine ⟨[], s.data, ?_⟩
  rw [hnil.1.2]
  rfl

/-- `exMapM` success maps members to members. -/
theorem exMapM_mem {α β : Type} (f : α → Except String β) :
    ∀ (xs : List α) (ys : List β), exMapM f xs = .ok ys →
      ∀ x ∈ xs, ∃ y ∈ ys, f x = .ok y := by
  intro xs
  induction xs with
  | nil => intro ys h x hx; cases hx
  | cons x0 rest ih =>
    intro ys h x hx
    simp only [exMapM] at h
    cases h0 : f x0 with
    | error e => rw [h0] at h; cases h
    | ok y0 =>
      rw [h0] at h
      cases hrest : exMapM f rest with
      | error e => rw [hrest] at h; cases h
      | ok ys0 =>
        rw [hrest] at h
        cases h
        rcases List.mem_cons.mp hx with rfl | hx'
        · exact ⟨y0, List.mem_cons_self _ _, h0⟩
        · obtain ⟨y, hy, hfy⟩ := ih ys0 hrest x hx'
          exact ⟨y, List.mem_cons_of_mem _ hy, hfy⟩

/-- The escaped title occurs in a processed-category row. -/
theorem htmlRowP_occurs (a : Article) (row : String) (h : htmlRowP a = .ok row) :
    Occurs (_e a.title) row := by
  obtain ⟨t, u, s, pub, rea⟩ := a
  cases u with
  | none => exact absurd h (by simp [htmlRowP])
  | some u =>
  cases t with
  | none => exact absurd h (by simp [htmlRowP])
  | some t =>
  simp only [htmlRowP, Except.ok.injEq] at h
  subst h
  exact occursRight _ (occursRight _ (occursRight _ (occursLeft _ (occursSelf _))))

/-- The escaped title occurs in a ghost-pick row. -/
theorem htmlRowPick_occurs (a : Article) (row : String) (h : htmlRowPick a = .ok row) :
    Occurs (_e a.title) row := by
  obtain ⟨t, u, s, pub, rea⟩ := a
  cases u with
  | none => exact absurd h (by simp [htmlRowPick])
  | some u =>
  cases t with
  | none => exact absurd h (by simp [htmlRowPick])
  | some t =>
  simp only [htmlRowPick, Except.ok.injEq] at h
  subst h
  exact occursRight _ (occursRight _ (occursRight _ (occursRight _ (occursRight _
    (occursRight _ (occursRight _ (occursLeft _ (occursSelf _))))))))

/-- The escaped title occurs in a raw-digest row. -/
theorem htmlRowRaw_occurs (a : Article) (row : String) (h : htmlRowRaw a = .ok row) :
    Occurs (_e a.title) row := by
  obtain ⟨t, u, s, pub, rea⟩ := a
  cases u with
  | none => exact absurd h (by simp [htmlRowRaw])
  | some u =>
  cases t with
  | none => exact absurd h (by simp [htmlRowRaw])
  | some t =>
  simp only [htmlRowRaw, Except.ok.injEq] at h
  subst h
  exact occursRight _ (occursRight _ (occursRight _ (occursRight _ (occursRight _
    (occursLeft _ (occursSelf _))))))

/-- The escaped title of each article occurs in its category's section. -/
theorem htmlCatSection_occurs (c : Category) (sec : String) (h : htmlCatSection c = .ok sec)
    (a : Article) (ha : a ∈ c.articles) : Occurs (_e a.title) sec := by
  simp only [htmlCatSection] at h
  cases hrows : exMapM htmlRowP c.articles with
  | error e => rw [hrows] at h; cases h
  | ok rows =>
    rw [hrows] at h
    cases hn : c.name with
    | none => rw [hn] at h; cases h
    | some nm =>
      rw [hn] at h
      cases h
      obtain ⟨row, hrm, hrow⟩ := exMapM_mem htmlRowP c.articles rows hrows a ha
      exact occursRight _ (occursLeft _
        (occurs_pyJoin "" rows row hrm (htmlRowP_occurs a row hrow)))

/-- The escaped title of each article occurs in its source group's
section. -/
theorem htmlSrcSection_occurs (g : String × List Article) (sec : String)
    (h : htmlSrcSection g = .ok sec) (a : Article) (ha : a ∈ g.2) :
    Occurs (_e a.title) sec := by
  simp only [htmlSrcSection] at h
  cases hrows : exMapM htmlRowRaw g.2 with
  | error e => rw [hrows] at h; cases h
  | ok rows =>
    rw [hrows] at h
    cases h
    obtain ⟨row, hrm, hrow⟩ := exMapM_mem htmlRowRaw g.2 rows hrows a ha
    exact occursRight _ (occursLeft _
      (occurs_pyJoin "" rows row hrm (htmlRowRaw_occurs a row hrow)))

/-- Each category article's escaped title occurs in some emitted section. -/
theorem htmlSectionsP_occurs :
    ∀ (cats : List Category) (secs : List String), htmlSectionsP cats = .ok secs →
      ∀ c ∈ cats, ∀ a ∈ c.articles, ∃ sec ∈ secs, Occurs (_e a.title) sec := by
  intro cats
  induction cats with
  | nil => intro secs h c hc; cases hc
  | cons c0 rest ih =>
    intro secs h c hc a ha
    simp only [htmlSectionsP] at h
    by_cases he : c0.articles.isEmpty
    · rw [if_pos he] at h
      rcases List.mem_cons.mp hc with rfl | hc'
      · rw [List.isEmpty_iff.mp he] at ha; cases ha
      · exact ih secs h c hc' a ha
    · rw [if_neg he] at h
      cases hsec : htmlCatSection c0 with
      | error e => rw [hsec] at h; cases h
      | ok s0 =>
        rw [hsec] at h
        cases hrest : htmlSectionsP rest with
        | error e => rw [hrest] at h; cases h
        | ok ss =>
          rw [hrest] at h
          cases h
          rcases List.mem_cons.mp hc with rfl | hc'
          · exact ⟨s0, List.mem_cons_self _ _, htmlCatSection_occurs c s0 hsec a ha⟩
          · obtain ⟨sec, hm, ho⟩ := ih ss hrest c hc' a ha
            exact ⟨sec, List.mem_cons_of_mem _ hm, ho⟩

/-- After adding an article, it belongs to some group. -/
theorem addToGroups_mem_self :
    ∀ (gs : List (String × List Article)) (k : String) (a : Article),
      ∃ g ∈ addToGroups gs k a, a ∈ g.2 := by
  intro gs
  induction gs with
  | nil =>
    intro k a
    exact ⟨(k, [a]), List.mem_singleton.mpr rfl, List.mem_singleton.mpr rfl⟩
  | cons p rest ih =>
    intro k a
    obtain ⟨k', as⟩ := p
    simp only [addToGroups]
    by_cases hk : k' = k
    · rw [if_pos hk]
      exact ⟨(k', as ++ [a]), List.mem_cons_self _ _, List.mem_append_right _ (List.mem_singleton.mpr rfl)⟩
    · rw [if_neg hk]
      obtain ⟨g, hg, hag⟩ := ih k a
      exact ⟨g, List.mem_cons_of_mem _ hg, hag⟩

/-- Adding an article never removes another article from its group. -/
theorem addToGroups_mem_mono :
    ∀ (gs : List (String × List Article)) (k : String) (b a : Article),
      (∃ g ∈ gs, a ∈ g.2) → ∃ g ∈ addToGroups gs k b, a ∈ g.2 := by
  intro gs
  induction gs with
  | nil => intro k b a h; obtain ⟨g, hg, -⟩ := h; cases hg
  | cons p rest ih =>
    intro k b a h
    obtain ⟨g, hg, hag⟩ := h
    obtain ⟨k', as⟩ := p
    simp only [addToGroups]
    by_cases hk : k' = k
    · rw [if_pos hk]
      rcases List.mem_cons.mp hg with rfl | hg'
      · exact ⟨(k', as ++ [b]), List.mem_cons_self _ _, List.mem_append_left _ hag⟩
      · exact ⟨g, List.mem_cons_of_mem _ hg', hag⟩
    · rw [if_neg hk]
      rcases List.mem_cons.mp hg with rfl | hg'
      · exact ⟨(k', as), List.mem_cons_self _ _, hag⟩
      · obtain ⟨g', hg'', hag'⟩ := ih k b a ⟨g, hg', hag⟩
        exact ⟨g', List.mem_cons_of_mem _ hg'', hag'⟩

/-- Every article of the list belongs to some group of the `by_src` loop. -/
theorem by_srcAux_mem :
    ∀ (arts : List Article) (gs : List (String × List Article)) (a : Article),
      a ∈ arts ∨ (∃ g ∈ gs, a ∈ g.2) → ∃ g ∈ by_srcAux gs arts, a ∈ g.2 := by
  intro arts
  induction arts with
  | nil =>
    intro gs a h
    rcases h with h | h
    · cases h
    · exact h
  | cons a0 rest ih =>
    intro gs a h
    simp only [by_srcAux]
    rcases h with h | h
    · rcases List.mem_cons.mp h with rfl | h'
      · exact ih _ a (Or.inr (addToGroups_mem_self gs _ a))
      · exact ih _ a (Or.inl h')
    · exact ih _ a (Or.inr (addToGroups_mem_mono gs _ a0 a h))

/-- Insertion keeps old members. -/
theorem mem_insertSorted_of_mem (le : α → α → Bool) (x : α) :
    ∀ (l : List α) (y : α), y ∈ l ∨ y = x → y ∈ insertSorted le x l := by
  intro l
  induction l with
  | nil =>
    intro y hy
    rcases hy with hy | rfl
    · cases hy
    · exact List.mem_singleton.mpr rfl
  | cons z zs ih =>
    intro y hy
    simp only [insertSorted]
    split
    · rcases hy with hy | rfl
      · exact List.mem_cons_of_mem _ hy
      · exact List.mem_cons_self _ _
    · rcases hy with hy | rfl
      · rcases List.mem_cons.mp hy with rfl | hy'
        · exact List.mem_cons_self _ _
        · exact List.mem_cons_of_mem _ (ih y (Or.inl hy'))
      · exact List.mem_cons_of_mem _ (ih y (Or.inr rfl))

/-- Sorting keeps members. -/
theorem mem_insertionSort_of_mem (le : α → α → Bool) :
    ∀ (l : List α) (y : α), y ∈ l → y ∈ insertionSort le l := by
  intro l
  induction l with
  | nil => intro y hy; cases hy
  | cons x xs ih =>
    intro y hy
    simp only [insertionSort]
    rcases List.mem_cons.mp hy with rfl | hy'
    · exact mem_insertSorted_of_mem le y (insertionSort le xs) y (Or.inr rfl)
    · exact mem_insertSorted_of_mem le x (insertionSort le xs) y (Or.inl (ih y hy'))

/-- Every raw article lands in a sorted source group. -/
theorem sortedGroups_mem (arts : List Article) (a : Article) (ha : a ∈ arts) :
    ∃ g ∈ sortedGroups arts, a ∈ g.2 := by
  obtain ⟨g, hg, hag⟩ := by_srcAux_mem arts [] a (Or.inl ha)
  exact ⟨g, mem_insertionSort_of_mem _ _ g hg, hag⟩

/-- Characters produced by escaping one character: never a raw `<`, `>`,
`"` or apostrophe. -/
theorem htmlEscapeChar_sound (c c' : Char) (h : c' ∈ (htmlEscapeChar c).data) :
    c' ≠ '<' ∧ c' ≠ '>' ∧ c' ≠ '"' ∧ c'.toNat ≠ 39 := by
  simp only [htmlEscapeChar] at h
  split at h
  · rw [show ("&amp;" : String).data = ['&', 'a', 'm', 'p', ';'] from rfl] at h
    fin_cases h <;> refine ⟨by decide, by decide, by decide, by decide⟩
  · split at h
    · rw [show ("&lt;" : String).data = ['&', 'l', 't', ';'] from rfl] at h
      fin_cases h <;> refine ⟨by decide, by decide, by decide, by decide⟩
    · split at h
      · rw [show ("&gt;" : String).data = ['&', 'g', 't', ';'] from rfl] at h
        fin_cases h <;> refine ⟨by decide, by decide, by decide, by decide⟩
      · split at h
        · rw [show ("&quot;" : String).data = ['&', 'q', 'u', 'o', 't', ';'] from rfl] at h
          fin_cases h <;> refine ⟨by decide, by decide, by decide, by decide⟩
        · split at h
          · rw [show ("&#x27;" : String).data = ['&', '#', 'x', '2', '7', ';'] from rfl] at h
            fin_cases h <;> refine ⟨by decide, by decide, by decide, by decide⟩
          · rename_i h1 h2 h3 h4 h5
            rw [show (String.singleton c).data = [c] from rfl] at h
            rcases List.mem_singleton.mp h with rfl
            refine ⟨fun hc => h2 hc, fun hc => h3 hc, fun hc => h4 hc, fun hc => h5 hc⟩

/-- Characters of an escaped string: never a raw `<`, `>`, `"` or
apostrophe. -/
theorem htmlEscape_sound (s : String) (c : Char) (h : c ∈ (htmlEscape s).data) :
    c ≠ '<' ∧ c ≠ '>' ∧ c ≠ '"' ∧ c.toNat ≠ 39 := by
  have hlist : ∀ (l : List Char), c ∈ htmlEscapeList l →
      c ≠ '<' ∧ c ≠ '>' ∧ c ≠ '"' ∧ c.toNat ≠ 39 := by
    intro l
    induction l with
    | nil => intro hc; cases hc
    | cons x xs ih =>
      intro hc
      rcases List.mem_append.mp hc with hc' | hc'
      · exact htmlEscapeChar_sound x c hc'
      · exact ih hc'
  exact hlist s.data h

/-- C4: every user-supplied field reaches the styled-markup output only
through `_e`; in particular the escaped title of every reachable article
occurs in the output, and an escaped string never contains a raw `<`, `>`,
`"` or apostrophe; `<` and `&` are rendered as their entities. -/
theorem c4_escaping (now : String) (d : Digest) (out : String)
    (h : format_digest_html now d = .ok out) :
    (∀ a, ReachableArticle d a → Occurs (_e a.title) out)
    ∧ (∀ (s : String), ∀ c ∈ (htmlEscape s).data,
        c ≠ '<' ∧ c ≠ '>' ∧ c ≠ '"' ∧ c.toNat ≠ 39)
    ∧ htmlEscape "<" = "&lt;" ∧ htmlEscape "&" = "&amp;"
    ∧ (format_digest_html "t" dEsc).map (fun s => containsSub s "a<b&c") = .ok false
    ∧ (format_digest_html "t" dEsc).map (fun s => containsSub s "a&lt;b&amp;c") = .ok true := by
  refine ⟨?_, htmlEscape_sound, by decide, by decide, by decide, by decide⟩
  intro a hra
  simp only [format_digest_html] at h
  cases hsec : htmlSections d with
  | error e => rw [hsec] at h; cases h
  | ok secs =>
    rw [hsec] at h
    cases h
    have hocc : ∃ sec ∈ secs, Occurs (_e a.title) sec := by
      cases d with
      | processed p =>
        simp only [htmlSections] at hsec
        cases hcs : htmlSectionsP p.categories with
        | error e => rw [hcs] at hsec; cases hsec
        | ok catSecs =>
          rw [hcs] at hsec
          simp only [] at hsec
          rcases hra with ⟨c, hc, hac⟩ | hpick
          · obtain ⟨sec, hm, ho⟩ := htmlSectionsP_occurs p.categories catSecs hcs c hc a hac
            by_cases hpe : p.ghost_picks.isEmpty
            · rw [if_pos hpe] at hsec
              cases hsec
              exact ⟨sec, hm, ho⟩
            · rw [if_neg hpe] at hsec
              cases hrows : exMapM htmlRowPick p.ghost_picks with
              | error e => rw [hrows] at hsec; cases hsec
              | ok rows =>
                rw [hrows] at hsec
                cases hsec
                exact ⟨sec, List.mem_append_left _ hm, ho⟩
          · have hpe : ¬p.ghost_picks.isEmpty := by
              cases hp : p.ghost_picks with
              | nil => rw [hp] at hpick; cases hpick
              | cons q qs => simp [hp]
            rw [if_neg hpe] at hsec
            cases hrows : exMapM htmlRowPick p.ghost_picks with
            | error e => rw [hrows] at hsec; cases hsec
            | ok rows =>
              rw [hrows] at hsec
              cases hsec
              obtain ⟨row, hrm, hrow⟩ := exMapM_mem htmlRowPick p.ghost_picks rows hrows a hpick
              refine ⟨htmlGhostSection rows,
                List.mem_append_right _ (List.mem_singleton.mpr rfl), ?_⟩
              simp only [htmlGhostSection]
              exact occursRight _ (occursLeft _
                (occurs_pyJoin "" rows row hrm (htmlRowPick_occurs a row hrow)))
      | raw r =>
        simp only [htmlSections] at hsec
        obtain ⟨g, hg, hag⟩ := sortedGroups_mem r.articles a hra
        obtain ⟨sec, hm, hsecg⟩ := exMapM_mem htmlSrcSection (sortedGroups r.articles) secs hsec g hg
        exact ⟨sec, hm, htmlSrcSection_occurs g sec hsecg a hag⟩
    obtain ⟨sec, hsm, hso⟩ := hocc
    have hjoin := occurs_pyJoin "\n" secs sec hsm hso
    by_cases hj : pyJoin "\n" secs = ""
    · rw [hj] at hjoin
      have hany := occurs_of_occurs_empty hjoin
      exact hany _
    · rw [if_neg hj]
      simp only [htmlTemplate]
      exact occursRight _ (occursRight _ (occursRight _ (occursLeft _ hjoin)))

/-- Witness for `c4_escaping` at the concrete digest `dC2`. -/
theorem c4_escaping_witness :
    (∀ a, ReachableArticle dC2 a → Occurs (_e a.title) (htmlOutOf "t" dC2))
    ∧ (∀ (s : String), ∀ c ∈ (htmlEscape s).data,
        c ≠ '<' ∧ c ≠ '>' ∧ c ≠ '"' ∧ c.toNat ≠ 39)
    ∧ htmlEscape "<" = "&lt;" ∧ htmlEscape "&" = "&amp;"
    ∧ (format_digest_html "t" dEsc).map (fun s => containsSub s "a<b&c") = .ok false
    ∧ (format_digest_html "t" dEsc).map (fun s => containsSub s "a&lt;b&amp;c") = .ok true :=
  c4_escaping "t" dC2 (htmlOutOf "t" dC2) rfl

end Dispatch
